import Mathlib

/-
Verification of the FilterManager subsystem (data-grid filter coordination).

The development shallowly embeds the FilterManager class: its mutable fields
become a state structure, its collaborators (grid options service, column
model, value service, row model, user component factory) become an
environment of functions, and each method becomes a Lean function from
environment and state to a result and an updated state.  Asynchronous
AgPromise values are modelled as pending-or-resolved containers; methods
that the source runs inside a promise callback are modelled at the point
where every involved promise has settled (the system is single threaded and
joins all applies before notifying, so the settled run is the observable
behaviour).  Host-language string operations (toUpperCase, split, indexOf,
join) are modelled charwise over the character list of a string.
-/

namespace AgGridFilter

/-- Charwise ASCII uppercase of one character; models the host toUpperCase
applied to a single character. -/
def upChar (c : Char) : Char :=
  if 97 ≤ c.toNat ∧ c.toNat ≤ 122 then Char.ofNat (c.toNat - 32) else c

/-- Models the host string method toUpperCase, applied charwise. -/
def toUpperCase (s : String) : String := String.mk (s.data.map upChar)

/-- Auxiliary for splitting a character list at every space character,
keeping empty segments, exactly like the host split with a one-space
separator. -/
def splitSpAux : List Char → List Char → List (List Char)
  | [], acc => [acc.reverse]
  | c :: rest, acc =>
    if c = ' ' then acc.reverse :: splitSpAux rest [] else splitSpAux rest (c :: acc)

/-- Models the host split on the one-character separator consisting of a
space, as used to build the quick-filter parts. -/
def splitSpace (s : String) : List String :=
  (splitSpAux s.data []).map String.mk

/-- Substring occurrence over character lists: needle occurs somewhere in
hay.  Models a host indexOf test for nonnegative result. -/
def hasSubChars (needle : List Char) : List Char → Bool
  | [] => needle.isEmpty
  | c :: rest => needle.isPrefixOf (c :: rest) || hasSubChars needle rest

/-- Models hay.indexOf(needle) being nonnegative on host strings. -/
def containsSub (hay needle : String) : Bool := hasSubChars needle.data hay.data

/-- Join character lists with a single separator character between
consecutive elements; models the host array join with a one-character
separator string. -/
def joinSep (sep : Char) : List (List Char) → List Char
  | [] => []
  | [s] => s
  | s :: rest => s ++ sep :: joinSep sep rest

/-- QUICK_FILTER_SEPARATOR is the newline character. -/
def QUICK_FILTER_SEPARATOR : Char := '\x0a'

/-- Join a list of strings with the quick-filter separator. -/
def joinNewline (parts : List String) : String :=
  String.mk (joinSep QUICK_FILTER_SEPARATOR (parts.map String.data))

/-- Modelled from the spec: the utility exists(value) from utils/generic
(outside src), which treats null, undefined and the empty string as
missing; all other values are present. -/
def existsStr : Option String → Bool
  | some s => !(s = "")
  | none => false

/-- Association-list lookup by column id; models reading from a host Map
keyed by column id. -/
def alookup {α : Type} : List (String × α) → String → Option α
  | [], _ => none
  | (k, v) :: rest, key => if k = key then some v else alookup rest key

/-- Replace the value stored under a key, or append the binding when the
key is absent; models writing one entry of a host keyed mapping. -/
def upsertFlag : List (String × Bool) → String → Bool → List (String × Bool)
  | [], cid, b => [(cid, b)]
  | (c, v) :: rest, cid, b =>
    if c = cid then (c, b) :: rest else (c, v) :: upsertFlag rest cid b

/-- Modelled from the spec: filter models are opaque serializable values
compared by structural deep equality (the jsonEquals utility, outside
src); we represent a model by its serialized form, so deep equality is
equality. -/
abbrev FilterModel := String

/-- The column collaborator contract: id, primary flag, active-value flag,
filtering permission, and whether its column definition requests the
group-column filter (used when dependant filters are created). -/
structure Column where
  colId : String
  primary : Bool
  valueActive : Bool
  filterAllowed : Bool
  groupColumnFilter : Bool
deriving DecidableEq, Repr

/-- A row node: raw data, aggregated data, and the writable cache slot for
the aggregated quick-filter text. -/
structure RowNode where
  data : List (String × String)
  aggData : List (String × String)
  quickFilterAggregateText : Option String
deriving DecidableEq, Repr

/-- AgPromise (utils, outside src), modelled from the spec: a settled-value
container; then runs its callback synchronously once resolved (the system
is single threaded and joins applies before notifying), and there is no
rejection channel, so an exception thrown by a callback propagates to the
caller. -/
inductive AgPromise (α : Type) : Type where
  | pending : AgPromise α
  | resolved (value : α) : AgPromise α

/-- resolveNow: the default when still pending, otherwise the mapped
resolved value. -/
def AgPromise.resolveNow {α β : Type} (p : AgPromise α) (default : β) (f : α → β) : β :=
  match p with
  | .pending => default
  | .resolved v => f v

/-- A filter instance (external collaborator).  Duck-typed capabilities are
modelled by presence flags; the instance state visible through getModel is
the stored model, setModel stores its argument, and isFilterActive is a
function of the stored model.  The id models host object identity (used by
the skip-this-filter comparison). -/
structure FilterComp where
  id : Nat
  model : Option FilterModel
  hasGetModel : Bool
  hasSetModel : Bool
  hasIsFilterActive : Bool
  activeFn : Option FilterModel → Bool
  hasDoesFilterPass : Bool
  passFn : RowNode → List (String × String) → Bool
  hasOnAnyFilterChanged : Bool

/-- The filter wrapper: lifecycle handle for one column filter.  The
wrapperId models host object identity of the wrapper (fresh at creation);
the GUI fields of the source wrapper (compiledElement, guiPromise,
compDetails) are DOM presentation state and are not modelled. -/
structure FilterWrapper where
  wrapperId : Nat
  column : Column
  filterPromise : Option (AgPromise FilterComp)

/-- Emitted grid events, carrying column ids. -/
inductive GridEvent : Type where
  | filterChanged (columns : List String)
  | filterDestroyed (source : String) (column : String)
deriving DecidableEq, Repr

/-- FilterRequestSource from the source file. -/
inductive FilterRequestSource : Type where
  | columnMenu
  | toolbar
  | noUi
deriving DecidableEq, Repr

/-- The collaborators of the FilterManager: grid options, column model,
value service, row data, and the user component factory (newFilter gives
the factory result for a column: no component, or a promise of the
instance). -/
structure GridEnv where
  clientSideRowModel : Bool
  cacheQuickFilter : Bool
  pivotMode : Bool
  pivotActive : Bool
  groupAggFiltering : Bool
  externalFilterPresentCb : Option Bool
  externalFilterPassCb : Option (RowNode → Bool)
  quickFilterColumns : List Column
  getValue : Column → RowNode → Option String
  getQuickFilterText : Column → Option (Option String → RowNode → Option String)
  groupAutoColumns : List Column
  getPrimaryColumn : String → Option Column
  getGridColumn : String → Option Column
  newFilter : Column → Option (AgPromise FilterComp)

/-- The mutable fields of the FilterManager class, together with the
observable effect log: emitted events, console warnings, and the
filter-active flags pushed into columns.  nextId supplies fresh wrapper
identities. -/
structure FilterManager where
  allColumnFilters : List (String × FilterWrapper)
  allColumnListeners : List String
  activeAggregateFilters : List FilterComp
  activeColumnFilters : List FilterComp
  quickFilter : Option String
  quickFilterParts : Option (List String)
  externalFilterPresent : Bool
  aggFiltering : Bool
  columnFilterActive : List (String × Bool)
  events : List GridEvent
  warnings : List String
  nextId : Nat

/-- An empty manager state. -/
def FilterManager.empty : FilterManager :=
  { allColumnFilters := [], allColumnListeners := [],
    activeAggregateFilters := [], activeColumnFilters := [],
    quickFilter := none, quickFilterParts := none,
    externalFilterPresent := false, aggFiltering := false,
    columnFilterActive := [], events := [], warnings := [], nextId := 0 }

/-- isExternalFilterPresentCallback: invoke the grid-option callback when
supplied, otherwise false. -/
def isExternalFilterPresentCallback (env : GridEnv) : Bool :=
  (env.externalFilterPresentCb).getD false

/-- doesExternalFilterPass: invoke the grid-option predicate when supplied,
otherwise false. -/
def doesExternalFilterPass (env : GridEnv) (node : RowNode) : Bool :=
  match env.externalFilterPassCb with
  | some f => f node
  | none => false

/-- setQuickFilterParts: the parts are the split of the quick-filter text on
the space character; a missing (or falsy empty) text clears the parts. -/
def setQuickFilterParts (st : FilterManager) : FilterManager :=
  { st with quickFilterParts :=
      match st.quickFilter with
      | some q => if q = "" then none else some (splitSpace q)
      | none => none }

/-- isQuickFilterPresent: the quick filter text is non-null. -/
def isQuickFilterPresent (st : FilterManager) : Bool := st.quickFilter.isSome

/-- isAggregateQuickFilterPresent. -/
def isAggregateQuickFilterPresent (env : GridEnv) (st : FilterManager) : Bool :=
  isQuickFilterPresent st && (st.aggFiltering || env.pivotMode)

/-- isNonAggregateQuickFilterPresent. -/
def isNonAggregateQuickFilterPresent (env : GridEnv) (st : FilterManager) : Bool :=
  isQuickFilterPresent st && !(st.aggFiltering || env.pivotMode)

/-- isColumnFilterPresent: some active column-level filter exists. -/
def isColumnFilterPresent (st : FilterManager) : Bool :=
  st.activeColumnFilters.length > 0

/-- isAggregateFilterPresent: some active aggregate-level filter exists. -/
def isAggregateFilterPresent (st : FilterManager) : Bool :=
  !(st.activeAggregateFilters.length = 0)

/-- parseQuickFilter: a missing value parses to null; on a row model other
than client-side the text parses to null with a console diagnostic;
otherwise the text is normalized to uppercase.  Returns the parsed value
together with the console output produced. -/
def parseQuickFilter (env : GridEnv) (newFilter : Option String) :
    Option String × List String :=
  if !(existsStr newFilter) then (none, [])
  else if !env.clientSideRowModel then
    (none, ["AG Grid - Quick filtering only works with the Client-Side Row Model"])
  else (newFilter.map toUpperCase, [])

/-- getQuickFilterTextForColumn: the value from the value service, replaced
by the column-supplied getQuickFilterText formatter when one is present,
then uppercased; a missing value yields null. -/
def getQuickFilterTextForColumn (env : GridEnv) (column : Column) (node : RowNode) :
    Option String :=
  let value := env.getValue column node
  let value :=
    match env.getQuickFilterText column with
    | some f => f value node
    | none => value
  if existsStr value then some (toUpperCase (value.getD "")) else none

/-- aggregateRowForQuickFilter: the text written into the row cache slot -
the present column texts joined with the quick-filter separator. -/
def aggregateRowForQuickFilter (env : GridEnv) (node : RowNode) : String :=
  joinNewline
    (env.quickFilterColumns.filterMap (fun c => getQuickFilterTextForColumn env c node))

/-- The aggregate text consulted by the cached path: the cache slot when it
holds a truthy value, otherwise the freshly aggregated text (the source
writes the fresh value back into the slot; the verdicts are unchanged by
modelling that write functionally). -/
def effectiveAggregateText (env : GridEnv) (node : RowNode) : String :=
  match node.quickFilterAggregateText with
  | some t => if t = "" then aggregateRowForQuickFilter env node else t
  | none => aggregateRowForQuickFilter env node

/-- doesRowPassQuickFilterNoCache: some eligible column text contains the
filter part. -/
def doesRowPassQuickFilterNoCache (env : GridEnv) (node : RowNode) (filterPart : String) :
    Bool :=
  env.quickFilterColumns.any fun column =>
    let part := getQuickFilterTextForColumn env column node
    existsStr part && containsSub (part.getD "") filterPart

/-- doesRowPassQuickFilterCache: the aggregated row text contains the filter
part. -/
def doesRowPassQuickFilterCache (env : GridEnv) (node : RowNode) (filterPart : String) :
    Bool :=
  containsSub (effectiveAggregateText env node) filterPart

/-- doesRowPassQuickFilter: every part must pass, through the cached or
uncached path according to the grid option. -/
def doesRowPassQuickFilter (env : GridEnv) (st : FilterManager) (node : RowNode) : Bool :=
  (st.quickFilterParts.getD []).all fun part =>
    if env.cacheQuickFilter then doesRowPassQuickFilterCache env node part
    else doesRowPassQuickFilterNoCache env node part

/-- The local isFilterActive check of updateActiveFilters: a filter missing
the isFilterActive capability is reported inactive (after a console
warning, not logged here); otherwise the instance is consulted. -/
def filterIsActive (f : FilterComp) : Bool :=
  if !f.hasIsFilterActive then false else f.activeFn f.model

/-- The aggregate-versus-row classification of updateActiveFilters. -/
def isAggFilter (env : GridEnv) (column : Column) : Bool :=
  let isSecondary := !column.primary
  if isSecondary then true
  else
    let isShowingPrimaryColumns := !env.pivotActive
    let isValueActive := column.valueActive
    if !isValueActive || !isShowingPrimaryColumns then false
    else if env.pivotMode then true
    else env.groupAggFiltering

/-- The forEach body of updateActiveFilters over the wrapper mapping:
resolved active filters are pushed, in mapping order, into the aggregate or
the column list according to the classification. -/
def collectActive (env : GridEnv) : List (String × FilterWrapper) →
    List FilterComp × List FilterComp
  | [] => ([], [])
  | (_, w) :: rest =>
    let tail := collectActive env rest
    match w.filterPromise with
    | some (.resolved f) =>
      if filterIsActive f then
        if isAggFilter env w.column then (tail.1, f :: tail.2)
        else (f :: tail.1, tail.2)
      else tail
    | _ => tail

/-- updateActiveFilters: both active sets are rebuilt from scratch from the
wrapper mapping. -/
def updateActiveFilters (env : GridEnv) (st : FilterManager) : FilterManager :=
  let pair := collectActive env st.allColumnFilters
  { st with activeColumnFilters := pair.1, activeAggregateFilters := pair.2 }

/-- The forEach of updateFilterFlagInColumns: each wrapper's activity is
read through resolveNow against the unguarded call filter!.isFilterActive()
and pushed into its column flag.  Unlike the guarded closure of
updateActiveFilters, this site consults the instance unconditionally, so a
resolved instance missing isFilterActive raises a TypeError that aborts
the iteration, keeping only the flags written so far (a pending promise
falls back to the resolveNow default false; an absent promise slot is
read as inactive, matching the treatment in updateActiveFilters). -/
def updateFlagsAux : List (String × FilterWrapper) → List (String × Bool) →
    List (String × Bool) × Option String
  | [], flags => (flags, none)
  | (_, w) :: rest, flags =>
    match w.filterPromise with
    | some (.resolved f) =>
      if !f.hasIsFilterActive then
        (flags, some "TypeError: filter.isFilterActive is not a function")
      else updateFlagsAux rest (upsertFlag flags w.column.colId (f.activeFn f.model))
    | _ => updateFlagsAux rest (upsertFlag flags w.column.colId false)

/-- updateFilterFlagInColumns: push each wrapper's current activity into its
column.  The second component is the TypeError raised when an iteration
step hits a resolved instance without isFilterActive; it propagates to the
caller, aborting whatever follows this phase. -/
def updateFilterFlagInColumns (st : FilterManager) : FilterManager × Option String :=
  match updateFlagsAux st.allColumnFilters st.columnFilterActive with
  | (flags, err) => ({ st with columnFilterActive := flags }, err)

/-- The loop of doColumnFiltersPass over one active set: a null or skipped
entry is passed over; a filter missing doesFilterPass raises; a failing
filter short-circuits to false. -/
def doColumnFiltersPassAux (node : RowNode) (targetedData : List (String × String))
    (filterToSkip : Option Nat) : List FilterComp → Except String Bool
  | [] => .ok true
  | f :: rest =>
    if filterToSkip = some f.id then doColumnFiltersPassAux node targetedData filterToSkip rest
    else if !f.hasDoesFilterPass then .error "Filter is missing method doesFilterPass"
    else if f.passFn node targetedData then doColumnFiltersPassAux node targetedData filterToSkip rest
    else .ok false

/-- doColumnFiltersPass: conjunction over the targeted active set against
the targeted data. -/
def doColumnFiltersPass (st : FilterManager) (node : RowNode)
    (filterToSkip : Option Nat) (targetAggregates : Bool) : Except String Bool :=
  let targetedFilters := if targetAggregates then st.activeAggregateFilters else st.activeColumnFilters
  let targetedData := if targetAggregates then node.aggData else node.data
  doColumnFiltersPassAux node targetedData filterToSkip targetedFilters

/-- doAggregateFiltersPass. -/
def doAggregateFiltersPass (st : FilterManager) (node : RowNode)
    (filterToSkip : Option Nat) : Except String Bool :=
  doColumnFiltersPass st node filterToSkip true

/-- doesRowPassFilter: quick filter stage, then external filter stage, then
the column filter conjunction, short-circuiting on the first failure. -/
def doesRowPassFilter (env : GridEnv) (st : FilterManager) (node : RowNode)
    (filterInstanceToSkip : Option Nat) : Except String Bool :=
  if isNonAggregateQuickFilterPresent env st && !doesRowPassQuickFilter env st node then
    .ok false
  else if st.externalFilterPresent && !doesExternalFilterPass env node then
    .ok false
  else if isColumnFilterPresent st then
    doColumnFiltersPass st node filterInstanceToSkip false
  else
    .ok true

/-- doesRowPassAggregateFilters: the aggregate variant. -/
def doesRowPassAggregateFilters (env : GridEnv) (st : FilterManager) (node : RowNode)
    (filterInstanceToSkip : Option Nat) : Except String Bool :=
  if isAggregateQuickFilterPresent env st && !doesRowPassQuickFilter env st node then
    .ok false
  else if isAggregateFilterPresent st then
    doAggregateFiltersPass st node filterInstanceToSkip
  else
    .ok true

/-- cachedFilter: the mapped wrapper for a column, when one exists. -/
def cachedFilter (st : FilterManager) (column : Column) : Option FilterWrapper :=
  alookup st.allColumnFilters column.colId

/-- createFilterWrapper: a fresh wrapper whose promise is the factory
result for the column (GUI mounting is presentation and is not
modelled). -/
def createFilterWrapper (env : GridEnv) (st : FilterManager) (column : Column) :
    FilterWrapper × FilterManager :=
  ({ wrapperId := st.nextId, column := column, filterPromise := env.newFilter column },
   { st with nextId := st.nextId + 1 })

/-- getOrCreateFilterWrapper: null when filtering is disallowed; otherwise
the cached wrapper, or a freshly created one entered into the mapping with
a column-listener registration. -/
def getOrCreateFilterWrapper (env : GridEnv) (st : FilterManager) (column : Column)
    (_source : FilterRequestSource) : Option FilterWrapper × FilterManager :=
  if !column.filterAllowed then (none, st)
  else
    match cachedFilter st column with
    | some w => (some w, st)
    | none =>
      let created := createFilterWrapper env st column
      (some created.1,
       { created.2 with
          allColumnFilters := created.2.allColumnFilters ++ [(column.colId, created.1)],
          allColumnListeners := created.2.allColumnListeners ++ [column.colId] })

/-- updateDependantFilters: group auto-columns configured with the group
column filter get their wrapper created eagerly. -/
def updateDependantFilters (env : GridEnv) (st : FilterManager) : FilterManager :=
  env.groupAutoColumns.foldl
    (fun s c =>
      if c.groupColumnFilter then (getOrCreateFilterWrapper env s c .noUi).2 else s)
    st

/-- onFilterChanged: recompute dependant wrappers, the active sets and the
per-column flags; when the flag update raises, the exception propagates
and everything after it - the external-present refresh and the event
dispatch - never runs.  Otherwise refresh the cached external-present flag
and dispatch one filter-changed event carrying the affected column ids
(the onAnyFilterChanged notifications to live instances are external hooks
with no modelled state effect). -/
def onFilterChanged (env : GridEnv) (st : FilterManager) (columns : List String) :
    FilterManager × Option String :=
  match updateFilterFlagInColumns
      (updateActiveFilters env (updateDependantFilters env st)) with
  | (st2, some e) => (st2, some e)
  | (st2, none) =>
    ({ st2 with
        externalFilterPresent := isExternalFilterPresentCallback env,
        events := st2.events ++ [GridEvent.filterChanged columns] },
     none)

/-- setQuickFilter: parse the text; when the parsed value differs from the
stored one, store it, rebuild the parts and run the filter-changed
protocol (whose flag-update exception, if any, is passed through). -/
def setQuickFilter (env : GridEnv) (st : FilterManager) (newFilter : Option String) :
    FilterManager × Option String :=
  if st.quickFilter = (parseQuickFilter env newFilter).1 then
    ({ st with warnings := st.warnings ++ (parseQuickFilter env newFilter).2 }, none)
  else
    onFilterChanged env
      (setQuickFilterParts
        { st with
            warnings := st.warnings ++ (parseQuickFilter env newFilter).2,
            quickFilter := (parseQuickFilter env newFilter).1 })
      []

/-- The model one wrapper exports: its resolved instance model through
getModel, nothing for a pending or absent promise or a missing
capability. -/
def entryModel (w : FilterWrapper) : Option FilterModel :=
  match w.filterPromise with
  | some (.resolved f) => if f.hasGetModel then f.model else none
  | _ => none

/-- The exported mapping of a wrapper list: every wrapper with a present
exported model contributes its entry, in mapping order. -/
def exportedModel (l : List (String × FilterWrapper)) : List (String × FilterModel) :=
  l.filterMap fun kv => (entryModel kv.2).map fun m => (kv.1, m)

/-- getFilterModel: the exported mapping - every wrapper whose promise has
resolved to an instance offering getModel and holding a present model
contributes its entry (a pending or absent promise contributes nothing;
console diagnostics of this method are not logged here). -/
def getFilterModel (st : FilterManager) : List (String × FilterModel) :=
  exportedModel st.allColumnFilters

/-- The columns whose serialized model differs between two manager states,
read off the second state's mapping. -/
def changedCols (stBefore stAfter : FilterManager) : List String :=
  stAfter.allColumnFilters.filterMap fun kv =>
    if alookup (getFilterModel stBefore) kv.1 = alookup (getFilterModel stAfter) kv.1
    then none else some kv.2.column.colId

/-- setModelOnFilterWrapper: apply one model to one wrapper promise.
Returns the updated promise, the console output, the error aborting the
run, if any, and whether the apply promise pushed for the join settled
within this turn (false exactly when the filter promise is still pending,
deferring the apply).  A null promise raises when the source dereferences
it; a resolved instance missing setModel is warned about but - the source
lacking a return after the warning - the absent method is still invoked,
which raises. -/
def setModelOnFilterWrapper (p : Option (AgPromise FilterComp))
    (newModel : Option FilterModel) :
    Option (AgPromise FilterComp) × List String × Option String × Bool :=
  match p with
  | none => (p, [], some "TypeError: filterPromise is null", true)
  | some .pending => (p, [], none, false)
  | some (.resolved f) =>
    if f.hasSetModel then
      (some (.resolved { f with model := newModel }), [], none, true)
    else
      (p, ["AG Grid: filter missing setModel method, which is needed for setFilterModel"],
       some "TypeError: filter.setModel is not a function", true)

/-- The first forEach of setFilterModel: apply the incoming model entry (or
null) to every existing wrapper, in mapping order; an exception aborts the
iteration, leaving later wrappers untouched.  The last component is true
when every apply of the iteration settled within this turn. -/
def applyExisting (model : List (String × FilterModel)) :
    List (String × FilterWrapper) →
    List (String × FilterWrapper) × List String × Option String × Bool
  | [] => ([], [], none, true)
  | (cid, w) :: rest =>
    match setModelOnFilterWrapper w.filterPromise (alookup model cid) with
    | (p, ws, some e, s) => ((cid, { w with filterPromise := p }) :: rest, ws, some e, s)
    | (p, ws, none, s) =>
      match applyExisting model rest with
      | (rest2, ws2, err2, s2) =>
        ((cid, { w with filterPromise := p }) :: rest2, ws ++ ws2, err2, s && s2)

/-- Replace the promise stored in the mapping entry of one column. -/
def setWrapperPromise (m : List (String × FilterWrapper)) (cid : String)
    (p : Option (AgPromise FilterComp)) : List (String × FilterWrapper) :=
  m.map fun kv => if kv.1 = cid then (kv.1, { kv.2 with filterPromise := p }) else kv

/-- The second loop of setFilterModel, over the model keys that had no
wrapper yet: resolve the column (warn and skip on an unknown id or when
filtering is disallowed), create its wrapper, and apply the entry; an
exception aborts the remainder.  The last component is true when every
apply pushed by the loop settled within this turn. -/
def createAndApply (env : GridEnv) :
    List (String × FilterModel) → FilterManager →
    FilterManager × Option String × Bool
  | [], st => (st, none, true)
  | (cid, m) :: rest, st =>
    match (match env.getPrimaryColumn cid with
      | some c => some c
      | none => env.getGridColumn cid) with
    | none =>
      createAndApply env rest
        { st with warnings := st.warnings ++
            ["AG Grid: setFilterModel() - no column found for colId: " ++ cid] }
    | some column =>
      if !column.filterAllowed then
        createAndApply env rest
          { st with warnings := st.warnings ++
              ["AG Grid: setFilterModel() - unable to fully apply model, filtering disabled for colId: " ++ cid] }
      else
        match getOrCreateFilterWrapper env st column .noUi with
        | (none, st') =>
          createAndApply env rest
            { st' with warnings := st'.warnings ++
                ["AG-Grid: setFilterModel() - unable to fully apply model, unable to create filter for colId: " ++ cid] }
        | (some w, st') =>
          match setModelOnFilterWrapper w.filterPromise (some m) with
          | (p, ws, some e, s) =>
            ({ st' with
                allColumnFilters := setWrapperPromise st'.allColumnFilters column.colId p,
                warnings := st'.warnings ++ ws }, some e, s)
          | (p, ws, none, s) =>
            match createAndApply env rest
                { st' with
                    allColumnFilters :=
                      setWrapperPromise st'.allColumnFilters column.colId p,
                    warnings := st'.warnings ++ ws } with
            | (st2, err2, s2) => (st2, err2, s && s2)

/-- The continuation the AgPromise.all join runs once every apply has
settled: export the model again, collect the columns whose serialized
entry changed, and when any did, run the filter-changed protocol once with
exactly those columns (passing its exception through). -/
def finishSetFilterModel (env : GridEnv) (st : FilterManager)
    (previousModel : List (String × FilterModel)) : FilterManager × Option String :=
  if (st.allColumnFilters.filterMap fun kv =>
      if alookup previousModel kv.1 = alookup (getFilterModel st) kv.1 then none
      else some kv.2.column.colId) = [] then (st, none)
  else
    onFilterChanged env st
      (st.allColumnFilters.filterMap fun kv =>
        if alookup previousModel kv.1 = alookup (getFilterModel st) kv.1 then none
        else some kv.2.column.colId)

/-- setFilterModel: snapshot the exported model, fan the entries out over
existing wrappers (marking the keys as processed), create-and-apply the
leftover keys (a null mapping instead clears every wrapper).  The
AgPromise.all join defers the diff-and-emit continuation until every
pushed apply settles: it runs within this turn only when no apply was
deferred by a still-pending filter promise; otherwise the turn ends after
the fan-out, with no diff and no emission yet.  The second component
reports the exception aborting the run, if any. -/
def setFilterModel (env : GridEnv) (st : FilterManager)
    (model : Option (List (String × FilterModel))) : FilterManager × Option String :=
  match model with
  | some m =>
    match applyExisting m st.allColumnFilters with
    | (wrappers, ws, some e, _) =>
      ({ st with allColumnFilters := wrappers, warnings := st.warnings ++ ws }, some e)
    | (wrappers, ws, none, s1) =>
      match createAndApply env
          (m.filter fun kv => (alookup st.allColumnFilters kv.1).isNone)
          { st with allColumnFilters := wrappers, warnings := st.warnings ++ ws } with
      | (st2, some e, _) => (st2, some e)
      | (st2, none, s2) =>
        if s1 && s2 then finishSetFilterModel env st2 (getFilterModel st)
        else (st2, none)
  | none =>
    match applyExisting [] st.allColumnFilters with
    | (wrappers, ws, some e, _) =>
      ({ st with allColumnFilters := wrappers, warnings := st.warnings ++ ws }, some e)
    | (wrappers, ws, none, s1) =>
      if s1 then
        finishSetFilterModel env
          { st with allColumnFilters := wrappers, warnings := st.warnings ++ ws }
          (getFilterModel st)
      else
        ({ st with allColumnFilters := wrappers, warnings := st.warnings ++ ws }, none)

/-- disposeFilterWrapper: once the promise has resolved, the source calls
filter!.setModel(null) and chains the teardown - bean destruction, the
column filter-active flag cleared, the wrapper removed from the mapping,
and a filter-destroyed event - onto its result.  Returns the updated
state, the instance as left behind, and the raised error, if any: an
instance missing setModel makes that unguarded call throw a TypeError, so
the teardown continuation never runs - nothing is unmapped, no flag
changes and no event fires (for a pending or null promise the whole body
is deferred and nothing happens yet either). -/
def disposeFilterWrapper (st : FilterManager) (w : FilterWrapper) (source : String) :
    FilterManager × Option FilterComp × Option String :=
  match w.filterPromise with
  | some (.resolved f) =>
    if f.hasSetModel then
      ({ st with
          columnFilterActive := upsertFlag st.columnFilterActive w.column.colId false,
          allColumnFilters := st.allColumnFilters.filter (fun kv => !(kv.1 = w.column.colId)),
          events := st.events ++ [.filterDestroyed source w.column.colId] },
       some { f with model := none }, none)
    else (st, none, some "TypeError: filter.setModel is not a function")
  | _ => (st, none, none)

/-- The quick-filter verdict for one row under a given raw filter text: the
text is parsed and split exactly as the pipeline does, and a row passes
vacuously when no quick filter results. -/
def quickFilterMatches (env : GridEnv) (node : RowNode) (t : String) : Bool :=
  let st := setQuickFilterParts
    { FilterManager.empty with quickFilter := (parseQuickFilter env (some t)).1 }
  if isQuickFilterPresent st then doesRowPassQuickFilter env st node else true

/-- The needle occurs somewhere in the list (the propositional form of a
substring occurrence). -/
def occursIn (p l : List Char) : Prop := ∃ pre post, l = pre ++ p ++ post

/-- The column-and-instance pairs that survive the activity check of
updateActiveFilters, in mapping order. -/
def activePairs (l : List (String × FilterWrapper)) :
    List (Column × FilterComp) :=
  l.filterMap fun kv =>
    match kv.2.filterPromise with
    | some (.resolved f) => if filterIsActive f then some (kv.2.column, f) else none
    | _ => none

/-- A wrapper whose promise has already resolved to an instance exposing
both model capabilities - the settled, fully capable case over which the
diff-and-emit behaviour is stated. -/
def goodWrapper (w : FilterWrapper) : Bool :=
  match w.filterPromise with
  | some (.resolved f) => f.hasSetModel && f.hasGetModel
  | _ => false

/-- A promise slot that is not still pending: absent or already resolved.
An apply pushed against it settles within the current turn. -/
def promiseSettled (p : Option (AgPromise FilterComp)) : Bool :=
  match p with
  | some .pending => false
  | _ => true

/-- No group auto-column requests the group column filter, so
updateDependantFilters creates nothing. -/
def noDependantGroupFilters (env : GridEnv) : Bool :=
  env.groupAutoColumns.all fun c => !c.groupColumnFilter

/-- The model held by the resolved instance mapped under a column id, when
there is one. -/
def wrapperModelAt (st : FilterManager) (cid : String) : Option (Option FilterModel) :=
  match alookup st.allColumnFilters cid with
  | some w =>
    match w.filterPromise with
    | some (.resolved f) => some f.model
    | _ => none
  | none => none

/-- Test fixture: a primary, non-value, filterable column. -/
def mkColumn (cid : String) : Column :=
  { colId := cid, primary := true, valueActive := false,
    filterAllowed := true, groupColumnFilter := false }

/-- Test fixture: a fully capable filter instance that is active exactly
when it holds a model and passes every row. -/
def mkComp (id : Nat) (model : Option FilterModel) : FilterComp :=
  { id := id, model := model, hasGetModel := true, hasSetModel := true,
    hasIsFilterActive := true, activeFn := fun m => m.isSome,
    hasDoesFilterPass := true, passFn := fun _ _ => true,
    hasOnAnyFilterChanged := false }

/-- Test fixture: a client-side grid with no collaborating callbacks. -/
def baseEnv : GridEnv :=
  { clientSideRowModel := true, cacheQuickFilter := true,
    pivotMode := false, pivotActive := false, groupAggFiltering := false,
    externalFilterPresentCb := none, externalFilterPassCb := none,
    quickFilterColumns := [], getValue := fun _ _ => none,
    getQuickFilterText := fun _ => none, groupAutoColumns := [],
    getPrimaryColumn := fun _ => none, getGridColumn := fun _ => none,
    newFilter := fun _ => none }

/-- Test fixture: two quick-filter columns reading the row data fields. -/
def dataEnv : GridEnv :=
  { baseEnv with
      quickFilterColumns := [mkColumn "first", mkColumn "last"],
      getValue := fun c n => alookup n.data c.colId }

/-- Test fixture: a row node with first and last name fields. -/
def johnNode : RowNode :=
  { data := [("first", "John"), ("last", "Smith")], aggData := [],
    quickFilterAggregateText := none }

/-- Test fixture: an instance offering getModel but not setModel. -/
def brokenComp : FilterComp :=
  { id := 1, model := some "m1", hasGetModel := true, hasSetModel := false,
    hasIsFilterActive := true, activeFn := fun m => m.isSome,
    hasDoesFilterPass := true, passFn := fun _ _ => true,
    hasOnAnyFilterChanged := false }

/-- Test fixture: a state with a broken-instance wrapper mapped before a
fully capable one. -/
def brokenSt : FilterManager :=
  { FilterManager.empty with
      allColumnFilters :=
        [("a", { wrapperId := 0, column := mkColumn "a",
                 filterPromise := some (.resolved brokenComp) }),
         ("b", { wrapperId := 1, column := mkColumn "b",
                 filterPromise := some (.resolved (mkComp 2 none)) })] }

/-- Test fixture: a factory producing an immediately-resolved capable
instance. -/
def env9 : GridEnv :=
  { baseEnv with newFilter := fun _ => some (.resolved (mkComp 1 none)) }

/-- Test fixture: the wrapper created by the first request against the
empty state under env9. -/
def wrap9 : FilterWrapper :=
  { wrapperId := 0, column := mkColumn "a",
    filterPromise := some (.resolved (mkComp 1 none)) }

/-- Test fixture: a state holding one resolved wrapper with a model. -/
def oneWrapperSt : FilterManager :=
  { FilterManager.empty with
      allColumnFilters :=
        [("a", { wrapperId := 0, column := mkColumn "a",
                 filterPromise := some (.resolved (mkComp 1 (some "m1"))) })] }

/-- Uppercasing a character twice equals uppercasing it once. -/
theorem upChar_upChar (c : Char) : upChar (upChar c) = upChar c := by
  by_cases h : 97 ≤ c.toNat ∧ c.toNat ≤ 122
  · have hc : upChar c = Char.ofNat (c.toNat - 32) := by simp [upChar, h]
    rw [hc]
    obtain ⟨h1, h2⟩ := h
    set n := c.toNat with hn
    clear hc hn
    interval_cases n <;> decide
  · have hc : upChar c = c := by simp [upChar, h]
    rw [hc, hc]

/-- Uppercasing a string is idempotent. -/
theorem toUpperCase_idem (s : String) : toUpperCase (toUpperCase s) = toUpperCase s := by
  unfold toUpperCase
  congr 1
  show (s.data.map upChar).map upChar = s.data.map upChar
  induction s.data with
  | nil => rfl
  | cons c t ih => simp [upChar_upChar, ih]

/-- Uppercasing preserves emptiness of a string. -/
theorem toUpperCase_eq_empty (s : String) : toUpperCase s = "" ↔ s = "" := by
  rw [String.ext_iff, String.ext_iff]
  show s.data.map upChar = [] ↔ s.data = []
  simp

/-- isPrefixOf over characters is existence of a completing tail. -/
theorem isPrefixOf_iff (a b : List Char) :
    a.isPrefixOf b = true ↔ ∃ t, b = a ++ t := by
  induction a generalizing b with
  | nil => simp [List.isPrefixOf]
  | cons x xs ih =>
    cases b with
    | nil => simp [List.isPrefixOf]
    | cons y ys =>
      simp only [List.isPrefixOf, Bool.and_eq_true, beq_iff_eq, ih, List.cons_append,
        List.cons.injEq]
      constructor
      · rintro ⟨hxy, t, ht⟩
        exact ⟨t, hxy.symm, ht⟩
      · rintro ⟨t, hxy, ht⟩
        exact ⟨hxy.symm, t, ht⟩

/-- The substring search succeeds exactly when the needle occurs in the
haystack. -/
theorem hasSubChars_iff (nd hay : List Char) :
    hasSubChars nd hay = true ↔ occursIn nd hay := by
  induction hay with
  | nil =>
    simp only [hasSubChars, List.isEmpty_iff, occursIn]
    constructor
    · rintro rfl
      exact ⟨[], [], rfl⟩
    · rintro ⟨pre, post, h⟩
      rcases List.append_eq_nil.mp h.symm with ⟨h1, h2⟩
      rcases List.append_eq_nil.mp h1 with ⟨_, h3⟩
      exact h3
  | cons c rest ih =>
    simp only [hasSubChars, Bool.or_eq_true, isPrefixOf_iff, ih, occursIn]
    constructor
    · rintro (⟨t, ht⟩ | ⟨pre, post, h⟩)
      · exact ⟨[], t, by simp [ht]⟩
      · exact ⟨c :: pre, post, by simp [h]⟩
    · rintro ⟨pre, post, h⟩
      cases pre with
      | nil =>
        left
        exact ⟨post, by simpa using h⟩
      | cons c' pre' =>
        right
        simp only [List.cons_append, List.cons.injEq] at h
        exact ⟨pre', post, h.2⟩

/-- Bridge from the Bool substring test on strings to occursIn. -/
theorem containsSub_iff (hay nd : String) :
    containsSub hay nd = true ↔ occursIn nd.data hay.data :=
  hasSubChars_iff nd.data hay.data

/-- An occurrence in an appended list lies inside the left part, inside the
right part, or crosses the boundary with a nonempty piece on each side. -/
theorem occursIn_append {p l₁ l₂ : List Char} (h : occursIn p (l₁ ++ l₂)) :
    occursIn p l₁ ∨ occursIn p l₂ ∨
      ∃ p₁ p₂, p = p₁ ++ p₂ ∧ ¬(p₁ = []) ∧ ¬(p₂ = []) ∧
        (∃ pre, l₁ = pre ++ p₁) ∧ ∃ post, l₂ = p₂ ++ post := by
  obtain ⟨pre, post, hsplit⟩ := h
  have h1 : pre ++ (p ++ post) = l₁ ++ l₂ := by
    rw [← List.append_assoc]
    exact hsplit.symm
  rcases List.append_eq_append_iff.mp h1 with ⟨a, ha1, ha2⟩ | ⟨a, ha1, ha2⟩
  · rcases List.append_eq_append_iff.mp ha2 with ⟨b, hb1, hb2⟩ | ⟨b, hb1, hb2⟩
    · left
      exact ⟨pre, b, by rw [ha1, hb1, List.append_assoc]⟩
    · cases b with
      | nil =>
        left
        refine ⟨pre, [], ?_⟩
        rw [ha1]
        simp at hb1
        simp [hb1]
      | cons x xs =>
        cases a with
        | nil =>
          right; left
          refine ⟨[], post, ?_⟩
          simp only [List.nil_append] at hb1 ⊢
          rw [hb1]
          simpa using hb2
        | cons y ys =>
          right; right
          refine ⟨y :: ys, x :: xs, hb1, by simp, by simp, ⟨pre, ha1⟩, ⟨post, hb2⟩⟩
  · right; left
    exact ⟨a, post, by rw [ha2, List.append_assoc]⟩

/-- An occurrence of a separator-free, nonempty needle in a separator-joined
list of parts is an occurrence in a single part: the separator prevents
text of adjacent parts from merging. -/
theorem occursIn_joinSep {sep : Char} {p : List Char}
    (hp : ¬(p = [])) (hsep : ¬(sep ∈ p)) :
    ∀ parts : List (List Char),
      occursIn p (joinSep sep parts) ↔ ∃ s ∈ parts, occursIn p s := by
  intro parts
  induction parts with
  | nil =>
    simp only [joinSep, occursIn]
    constructor
    · rintro ⟨pre, post, h⟩
      rcases List.append_eq_nil.mp h.symm with ⟨h1, _⟩
      rcases List.append_eq_nil.mp h1 with ⟨_, h3⟩
      exact absurd h3 hp
    · rintro ⟨s, hs, _⟩
      exact absurd hs (List.not_mem_nil s)
  | cons s rest ih =>
    cases rest with
    | nil =>
      show occursIn p s ↔ ∃ s' ∈ [s], occursIn p s'
      simp
    | cons r rs =>
      have hjoin : joinSep sep (s :: r :: rs) = s ++ ([sep] ++ joinSep sep (r :: rs)) := rfl
      rw [hjoin]
      constructor
      · intro h
        rcases occursIn_append h with h' | h' | ⟨p₁, p₂, hp12, hp1, hp2, _, hpre⟩
        · exact ⟨s, by simp, h'⟩
        · rcases occursIn_append h' with h'' | h'' | ⟨p₁, p₂, hp12, hp1, hp2, ⟨pre, hpre⟩, _⟩
          · obtain ⟨pre, post, hh⟩ := h''
            cases pre with
            | nil =>
              cases p with
              | nil => exact absurd rfl hp
              | cons x xs =>
                simp only [List.nil_append, List.cons_append, List.cons.injEq] at hh
                exact absurd (by simp [hh.1]) hsep
            | cons y ys =>
              simp only [List.cons_append, List.cons.injEq] at hh
              rcases List.append_eq_nil.mp hh.2.symm with ⟨h1, _⟩
              rcases List.append_eq_nil.mp h1 with ⟨_, h3⟩
              exact absurd h3 hp
          · obtain ⟨s', hs', ho⟩ := (ih).mp h''
            exact ⟨s', by simp [hs'], ho⟩
          · cases p₁ with
            | nil => exact absurd rfl hp1
            | cons y ys =>
              have : y = sep := by
                cases pre with
                | nil => simpa using congrArg (fun l => l.headD sep) hpre.symm
                | cons z zs =>
                  simp only [List.cons_append, List.cons.injEq] at hpre
                  rcases List.append_eq_nil.mp hpre.2.symm with ⟨_, h2⟩
                  exact absurd h2 (by simp)
              refine absurd ?_ hsep
              rw [hp12, this]
              simp
        · obtain ⟨post, hpost⟩ := hpre
          cases p₂ with
          | nil => exact absurd rfl hp2
          | cons y ys =>
            have : y = sep := by
              simpa using congrArg (fun l => l.headD sep) hpost.symm
            refine absurd ?_ hsep
            rw [hp12, this]
            simp
      · rintro ⟨s', hs', pre, post, ho⟩
        rcases List.mem_cons.mp hs' with rfl | hs'
        · exact ⟨pre, post ++ ([sep] ++ joinSep sep (r :: rs)), by simp [ho]⟩
        · obtain ⟨pre2, post2, ho2⟩ := (ih).mpr ⟨s', hs', pre, post, ho⟩
          exact ⟨s ++ [sep] ++ pre2, post2, by simp [ho2]⟩

/-- A present key makes the lookup hit. -/
theorem alookup_isSome_of_mem_keys {α : Type} {l : List (String × α)} {k : String}
    (h : k ∈ l.map Prod.fst) : (alookup l k).isSome = true := by
  induction l with
  | nil => simp at h
  | cons x rest ih =>
    by_cases hx : x.1 = k
    · simp [alookup, hx]
    · simp only [List.map_cons, List.mem_cons] at h
      rcases h with h | h
      · exact absurd h.symm hx
      · simpa [alookup, hx] using ih h

/-- Appending a binding for an absent key makes it the one found. -/
theorem alookup_append_single {α : Type} {l : List (String × α)} {k : String}
    (h : alookup l k = none) (v : α) : alookup (l ++ [(k, v)]) k = some v := by
  induction l with
  | nil => simp [alookup]
  | cons x rest ih =>
    by_cases hx : x.1 = k
    · simp [alookup, hx] at h
    · cases x with
      | mk c w =>
        simp only at hx
        simp only [alookup, hx, if_neg hx, List.cons_append] at h ⊢
        exact ih h

/-- Filtering out a key removes every binding for it. -/
theorem alookup_filter_self {α : Type} (l : List (String × α)) (k : String) :
    alookup (l.filter fun kv => !(kv.1 = k)) k = none := by
  induction l with
  | nil => simp [alookup]
  | cons x rest ih =>
    by_cases hx : x.1 = k
    · simpa [List.filter_cons, hx] using ih
    · simpa [List.filter_cons, hx, alookup] using ih

/-- Writing a flag makes it the one read back. -/
theorem alookup_upsertFlag (l : List (String × Bool)) (k : String) (b : Bool) :
    alookup (upsertFlag l k b) k = some b := by
  induction l with
  | nil => simp [upsertFlag, alookup]
  | cons x rest ih =>
    cases x with
    | mk c v =>
      by_cases hx : c = k
      · simp [upsertFlag, hx, alookup]
      · simp [upsertFlag, hx, alookup, ih]

/-- The column-filter loop returns ok true exactly when every non-skipped
entry offers doesFilterPass and passes. -/
theorem doColumnFiltersPassAux_ok_true (node : RowNode)
    (targetedData : List (String × String)) (skip : Option Nat) :
    ∀ l : List FilterComp,
      doColumnFiltersPassAux node targetedData skip l = .ok true ↔
        ∀ f ∈ l, ¬(skip = some f.id) →
          f.hasDoesFilterPass = true ∧ f.passFn node targetedData = true := by
  intro l
  induction l with
  | nil => simp [doColumnFiltersPassAux]
  | cons f rest ih =>
    by_cases hskip : skip = some f.id
    · simp only [doColumnFiltersPassAux, if_pos hskip, ih, List.mem_cons]
      constructor
      · rintro h g (rfl | hg) hgskip
        · exact absurd hskip hgskip
        · exact h g hg hgskip
      · intro h g hg
        exact h g (Or.inr hg)
    · cases hpass : f.hasDoesFilterPass with
      | false =>
        have hstep : doColumnFiltersPassAux node targetedData skip (f :: rest) =
            .error "Filter is missing method doesFilterPass" := by
          simp [doColumnFiltersPassAux, hskip, hpass]
        rw [hstep]
        constructor
        · intro h
          exact absurd h (by simp)
        · intro h
          have hf := h f (List.mem_cons_self f rest) hskip
          rw [hpass] at hf
          exact absurd hf.1 (by simp)
      | true =>
        cases hfn : f.passFn node targetedData with
        | true =>
          have hstep : doColumnFiltersPassAux node targetedData skip (f :: rest) =
              doColumnFiltersPassAux node targetedData skip rest := by
            simp [doColumnFiltersPassAux, hskip, hpass, hfn]
          rw [hstep, ih]
          constructor
          · intro h g hg hgskip
            rcases List.mem_cons.mp hg with rfl | hg'
            · exact ⟨hpass, hfn⟩
            · exact h g hg' hgskip
          · intro h g hg
            exact h g (List.mem_cons_of_mem f hg)
        | false =>
          have hstep : doColumnFiltersPassAux node targetedData skip (f :: rest) =
              .ok false := by
            simp [doColumnFiltersPassAux, hskip, hpass, hfn]
          rw [hstep]
          constructor
          · intro h
            exact absurd h (by simp)
          · intro h
            have hf := h f (List.mem_cons_self f rest) hskip
            rw [hfn] at hf
            exact absurd hf.2 (by simp)

/-- An empty active set is what a false isColumnFilterPresent means. -/
theorem activeColumnFilters_eq_nil_of_not_present {st : FilterManager}
    (hc : isColumnFilterPresent st = false) : st.activeColumnFilters = [] := by
  simp only [isColumnFilterPresent, gt_iff_lt, decide_eq_false_iff_not, Nat.not_lt,
    Nat.le_zero] at hc
  exact List.eq_nil_of_length_eq_zero hc

/-- Claim C1: doesRowPassFilter evaluates the quick-filter stage (only when
a quick filter is present and not routed to aggregate mode), then the
external filter stage (only when the cached external-present flag is set),
then the conjunction of doesFilterPass over the active column filters
skipping the excluded instance; it returns ok true exactly when every
applicable stage passes, and a failing earlier stage short-circuits the
evaluation to ok false. -/
theorem doesRowPassFilter_stages (env : GridEnv) (st : FilterManager)
    (node : RowNode) (skip : Option Nat) :
    (doesRowPassFilter env st node skip = .ok true ↔
      ((isNonAggregateQuickFilterPresent env st = true →
          doesRowPassQuickFilter env st node = true) ∧
       (st.externalFilterPresent = true → doesExternalFilterPass env node = true) ∧
       (∀ f ∈ st.activeColumnFilters, ¬(skip = some f.id) →
          f.hasDoesFilterPass = true ∧ f.passFn node node.data = true))) ∧
    (isNonAggregateQuickFilterPresent env st = true →
      doesRowPassQuickFilter env st node = false →
      doesRowPassFilter env st node skip = .ok false) ∧
    ((isNonAggregateQuickFilterPresent env st = true →
        doesRowPassQuickFilter env st node = true) →
      st.externalFilterPresent = true → doesExternalFilterPass env node = false →
      doesRowPassFilter env st node skip = .ok false) := by
  have hcolpass : ∀ b : Bool,
      (if b = true then doColumnFiltersPass st node skip false else .ok true) = .ok true ↔
        (b = true → ∀ f ∈ st.activeColumnFilters, ¬(skip = some f.id) →
          f.hasDoesFilterPass = true ∧ f.passFn node node.data = true) := by
    intro b
    cases b with
    | false => simp
    | true =>
      simp only [if_pos rfl, true_implies]
      exact doColumnFiltersPassAux_ok_true node node.data skip st.activeColumnFilters
  refine ⟨?_, ?_, ?_⟩
  · cases hq : isNonAggregateQuickFilterPresent env st with
    | true =>
      cases hqp : doesRowPassQuickFilter env st node with
      | false => simp [doesRowPassFilter, hq, hqp]
      | true =>
        cases he : st.externalFilterPresent with
        | true =>
          cases hep : doesExternalFilterPass env node with
          | false => simp [doesRowPassFilter, hq, hqp, he, hep]
          | true =>
            cases hc : isColumnFilterPresent st with
            | true =>
              have hcp := by simpa using hcolpass true
              simp [doesRowPassFilter, hq, hqp, he, hep, hc, hcp]
            | false =>
              simp [doesRowPassFilter, hq, hqp, he, hep, hc,
                activeColumnFilters_eq_nil_of_not_present hc]
        | false =>
          cases hc : isColumnFilterPresent st with
          | true =>
            have hcp := by simpa using hcolpass true
            simp [doesRowPassFilter, hq, hqp, he, hc, hcp]
          | false =>
            simp [doesRowPassFilter, hq, hqp, he, hc,
              activeColumnFilters_eq_nil_of_not_present hc]
    | false =>
      cases he : st.externalFilterPresent with
      | true =>
        cases hep : doesExternalFilterPass env node with
        | false => simp [doesRowPassFilter, hq, he, hep]
        | true =>
          cases hc : isColumnFilterPresent st with
          | true =>
            have hcp := by simpa using hcolpass true
            simp [doesRowPassFilter, hq, he, hep, hc, hcp]
          | false =>
            simp [doesRowPassFilter, hq, he, hep, hc,
              activeColumnFilters_eq_nil_of_not_present hc]
      | false =>
        cases hc : isColumnFilterPresent st with
        | true =>
          have hcp := by simpa using hcolpass true
          simp [doesRowPassFilter, hq, he, hc, hcp]
        | false =>
          simp [doesRowPassFilter, hq, he, hc,
            activeColumnFilters_eq_nil_of_not_present hc]
  · intro hq hqp
    simp [doesRowPassFilter, hq, hqp]
  · intro hq he hep
    cases hqq : isNonAggregateQuickFilterPresent env st with
    | true => simp [doesRowPassFilter, hqq, hq hqq, he, hep]
    | false => simp [doesRowPassFilter, hqq, he, hep]

/-- The rebuild loop splits the active resolved instances between the two
sets by the aggregate classification of their column, keeping mapping
order. -/
theorem collectActive_eq (env : GridEnv) :
    ∀ l, collectActive env l =
      (((activePairs l).filter fun cf => !isAggFilter env cf.1).map Prod.snd,
       ((activePairs l).filter fun cf => isAggFilter env cf.1).map Prod.snd) := by
  intro l
  induction l with
  | nil => rfl
  | cons kv rest ih =>
    cases kv with
    | mk cid w =>
      cases hp : w.filterPromise with
      | none => simp [collectActive, activePairs, hp, ih]
      | some pr =>
        cases pr with
        | pending => simp [collectActive, activePairs, hp, ih]
        | resolved f =>
          cases hact : filterIsActive f with
          | false => simp [collectActive, activePairs, hp, hact, ih]
          | true =>
            cases hagg : isAggFilter env w.column with
            | false => simp [collectActive, activePairs, hp, hact, hagg, ih]
            | true => simp [collectActive, activePairs, hp, hact, hagg, ih]

/-- Claim C3: after the active sets are rebuilt, the aggregate set holds
exactly the active filters of aggregate-classified columns (the column set
the rest); a column is aggregate-classified exactly when it is non-primary,
or is an active value column while primary columns are displayed and pivot
mode is on or group-aggregate filtering is enabled; hence a primary
non-value column is never aggregate-classified. -/
theorem updateActiveFilters_classification (env : GridEnv) (st : FilterManager) :
    ((updateActiveFilters env st).activeAggregateFilters =
        ((activePairs st.allColumnFilters).filter fun cf => isAggFilter env cf.1).map
          Prod.snd) ∧
    ((updateActiveFilters env st).activeColumnFilters =
        ((activePairs st.allColumnFilters).filter fun cf => !isAggFilter env cf.1).map
          Prod.snd) ∧
    (∀ c : Column, isAggFilter env c = true ↔
        (c.primary = false ∨
          (c.valueActive = true ∧ env.pivotActive = false ∧
            (env.pivotMode = true ∨ env.groupAggFiltering = true)))) ∧
    (∀ c : Column, c.primary = true → c.valueActive = false → isAggFilter env c = false) := by
  refine ⟨?_, ?_, ?_, ?_⟩
  · simp [updateActiveFilters, collectActive_eq]
  · simp [updateActiveFilters, collectActive_eq]
  · intro c
    cases hprim : c.primary <;> cases hval : c.valueActive <;>
      cases hpa : env.pivotActive <;> cases hpm : env.pivotMode <;>
      cases hga : env.groupAggFiltering <;>
      simp [isAggFilter, hprim, hval, hpa, hpm, hga]
  · intro c hprim hval
    cases hpa : env.pivotActive <;> simp [isAggFilter, hprim, hval, hpa]

/-- Claim C8: every member of either active set after a rebuild stems from
a wrapper whose instantiation promise has resolved, so a still-pending
filter is never consulted by synchronous row evaluation. -/
theorem activeFilters_only_resolved (env : GridEnv) (st : FilterManager) (f : FilterComp)
    (h : f ∈ (updateActiveFilters env st).activeColumnFilters ∨
         f ∈ (updateActiveFilters env st).activeAggregateFilters) :
    ∃ cid w, (cid, w) ∈ st.allColumnFilters ∧
      w.filterPromise = some (.resolved f) := by
  have hmem : ∃ c, (c, f) ∈ activePairs st.allColumnFilters := by
    rcases h with h | h
    all_goals
      simp only [updateActiveFilters, collectActive_eq] at h
      obtain ⟨cf, hcf, hcf2⟩ := List.mem_map.mp h
      refine ⟨cf.1, ?_⟩
      have heq : (cf.1, f) = cf := by rw [← hcf2]
      rw [heq]
      exact (List.mem_filter.mp hcf).1
  obtain ⟨c, hc⟩ := hmem
  simp only [activePairs, List.mem_filterMap] at hc
  obtain ⟨kv, hkv, hmatch⟩ := hc
  cases hp : kv.2.filterPromise with
  | none =>
    rw [hp] at hmatch
    simp at hmatch
  | some pr =>
    cases pr with
    | pending =>
      rw [hp] at hmatch
      simp at hmatch
    | resolved g =>
      rw [hp] at hmatch
      cases hact : filterIsActive g with
      | false => simp [hact] at hmatch
      | true =>
        simp only [hact, if_true, Option.some.injEq, Prod.mk.injEq] at hmatch
        refine ⟨kv.1, kv.2, by simpa using hkv, ?_⟩
        rw [hp, hmatch.2]

/-- The claim C8 theorem applied at a concrete state holding one resolved
active wrapper. -/
theorem activeFilters_only_resolved_witness :
    ∃ cid w, (cid, w) ∈ oneWrapperSt.allColumnFilters ∧
      w.filterPromise = some (.resolved (mkComp 1 (some "m1"))) :=
  activeFilters_only_resolved baseEnv oneWrapperSt (mkComp 1 (some "m1"))
    (Or.inl (by
      rw [show (updateActiveFilters baseEnv oneWrapperSt).activeColumnFilters =
        [mkComp 1 (some "m1")] from rfl]
      exact List.mem_singleton_self _))

/-- Requesting a wrapper touches only the mapping, the listener registry
and the id supply: every other manager field is untouched. -/
theorem getOrCreate_proj (env : GridEnv) (s : FilterManager) (c : Column)
    (src : FilterRequestSource) :
    ((getOrCreateFilterWrapper env s c src).2).quickFilter = s.quickFilter ∧
    ((getOrCreateFilterWrapper env s c src).2).quickFilterParts = s.quickFilterParts ∧
    ((getOrCreateFilterWrapper env s c src).2).events = s.events ∧
    ((getOrCreateFilterWrapper env s c src).2).warnings = s.warnings ∧
    ((getOrCreateFilterWrapper env s c src).2).externalFilterPresent =
      s.externalFilterPresent ∧
    ((getOrCreateFilterWrapper env s c src).2).aggFiltering = s.aggFiltering ∧
    ((getOrCreateFilterWrapper env s c src).2).columnFilterActive = s.columnFilterActive ∧
    ((getOrCreateFilterWrapper env s c src).2).activeColumnFilters =
      s.activeColumnFilters ∧
    ((getOrCreateFilterWrapper env s c src).2).activeAggregateFilters =
      s.activeAggregateFilters := by
  unfold getOrCreateFilterWrapper createFilterWrapper
  cases hall : c.filterAllowed <;> cases hc : cachedFilter s c <;> simp [hall, hc]

/-- A fold whose step preserves a projection preserves it overall. -/
theorem foldl_state_proj {β α : Type} (g : FilterManager → α)
    (step : FilterManager → β → FilterManager)
    (hstep : ∀ s b, g (step s b) = g s) :
    ∀ (l : List β) (s : FilterManager), g (l.foldl step s) = g s := by
  intro l
  induction l with
  | nil => intro s; rfl
  | cons b rest ih =>
    intro s
    rw [List.foldl_cons, ih, hstep]

/-- Creating dependant group filters preserves every projection the
request-wrapper step preserves. -/
theorem updateDependantFilters_proj {α : Type} (env : GridEnv) (g : FilterManager → α)
    (hg : ∀ s c, g ((getOrCreateFilterWrapper env s c .noUi).2) = g s)
    (s : FilterManager) : g (updateDependantFilters env s) = g s := by
  refine foldl_state_proj g _ ?_ env.groupAutoColumns s
  intro s c
  by_cases h : c.groupColumnFilter = true
  · simp [h, hg]
  · simp [h]

/-- Without group auto-columns requesting the group filter, the dependant
recomputation is the identity. -/
theorem foldl_no_group (env : GridEnv) :
    ∀ l : List Column, (∀ c ∈ l, c.groupColumnFilter = false) →
      ∀ s : FilterManager,
        l.foldl
          (fun s c =>
            if c.groupColumnFilter then (getOrCreateFilterWrapper env s c .noUi).2 else s)
          s = s := by
  intro l
  induction l with
  | nil =>
    intro _ s
    rfl
  | cons c rest ih =>
    intro h s
    rw [List.foldl_cons, h c (List.mem_cons_self c rest)]
    rw [if_neg Bool.false_ne_true]
    exact ih (fun d hd => h d (List.mem_cons_of_mem c hd)) s

theorem updateDependantFilters_eq_self {env : GridEnv}
    (hno : noDependantGroupFilters env = true) (s : FilterManager) :
    updateDependantFilters env s = s := by
  unfold updateDependantFilters
  apply foldl_no_group
  intro c hc
  unfold noDependantGroupFilters at hno
  have := List.all_eq_true.mp hno c hc
  simpa using this

/-- The flag-update phase touches only the per-column flags: in either
outcome every other field of the returned state is that of the input. -/
theorem updateFilterFlag_proj (st : FilterManager) :
    (updateFilterFlagInColumns st).1.quickFilter = st.quickFilter ∧
    (updateFilterFlagInColumns st).1.quickFilterParts = st.quickFilterParts ∧
    (updateFilterFlagInColumns st).1.events = st.events ∧
    (updateFilterFlagInColumns st).1.allColumnFilters = st.allColumnFilters ∧
    (updateFilterFlagInColumns st).1.externalFilterPresent = st.externalFilterPresent := by
  unfold updateFilterFlagInColumns
  rcases h : updateFlagsAux st.allColumnFilters st.columnFilterActive with ⟨flags, err⟩
  exact ⟨rfl, rfl, rfl, rfl, rfl⟩

/-- When the flag update survives, the filter-changed protocol appends
exactly one filter-changed event with the given columns (when it raises,
the dispatch never runs). -/
theorem onFilterChanged_events_ok (env : GridEnv) (s : FilterManager) (cols : List String)
    (hok : (onFilterChanged env s cols).2 = none) :
    (onFilterChanged env s cols).1.events = s.events ++ [GridEvent.filterChanged cols] := by
  have h1 : (updateDependantFilters env s).events = s.events :=
    updateDependantFilters_proj env (fun st => st.events)
      (fun s c => (getOrCreate_proj env s c .noUi).2.2.1) s
  have h2 : (updateActiveFilters env (updateDependantFilters env s)).events = s.events := by
    simp [updateActiveFilters, h1]
  unfold onFilterChanged at hok ⊢
  rcases h3 : updateFilterFlagInColumns
      (updateActiveFilters env (updateDependantFilters env s)) with ⟨st2, err⟩
  have h4 : st2.events = s.events := by
    have h5 := (updateFilterFlag_proj
      (updateActiveFilters env (updateDependantFilters env s))).2.2.1
    rw [h3] at h5
    rw [h2] at h5
    exact h5
  rw [h3] at hok
  cases err with
  | some e =>
    have hok2 : (some e : Option String) = none := hok
    exact absurd hok2 (by simp)
  | none =>
    show st2.events ++ [GridEvent.filterChanged cols] =
      s.events ++ [GridEvent.filterChanged cols]
    rw [h4]

/-- The filter-changed protocol does not touch the quick-filter text. -/
theorem onFilterChanged_quickFilter (env : GridEnv) (s : FilterManager)
    (cols : List String) :
    (onFilterChanged env s cols).1.quickFilter = s.quickFilter := by
  have h1 : (updateDependantFilters env s).quickFilter = s.quickFilter :=
    updateDependantFilters_proj env (fun st => st.quickFilter)
      (fun s c => (getOrCreate_proj env s c .noUi).1) s
  have h2 : (updateActiveFilters env (updateDependantFilters env s)).quickFilter =
      s.quickFilter := by
    simp [updateActiveFilters, h1]
  unfold onFilterChanged
  rcases h3 : updateFilterFlagInColumns
      (updateActiveFilters env (updateDependantFilters env s)) with ⟨st2, err⟩
  have h4 : st2.quickFilter = s.quickFilter := by
    have h5 := (updateFilterFlag_proj
      (updateActiveFilters env (updateDependantFilters env s))).1
    rw [h3] at h5
    rw [h2] at h5
    exact h5
  cases err with
  | some e => exact h4
  | none => exact h4

/-- The filter-changed protocol does not touch the quick-filter parts. -/
theorem onFilterChanged_quickFilterParts (env : GridEnv) (s : FilterManager)
    (cols : List String) :
    (onFilterChanged env s cols).1.quickFilterParts = s.quickFilterParts := by
  have h1 : (updateDependantFilters env s).quickFilterParts = s.quickFilterParts :=
    updateDependantFilters_proj env (fun st => st.quickFilterParts)
      (fun s c => (getOrCreate_proj env s c .noUi).2.1) s
  have h2 : (updateActiveFilters env (updateDependantFilters env s)).quickFilterParts =
      s.quickFilterParts := by
    simp [updateActiveFilters, h1]
  unfold onFilterChanged
  rcases h3 : updateFilterFlagInColumns
      (updateActiveFilters env (updateDependantFilters env s)) with ⟨st2, err⟩
  have h4 : st2.quickFilterParts = s.quickFilterParts := by
    have h5 := (updateFilterFlag_proj
      (updateActiveFilters env (updateDependantFilters env s))).2.1
    rw [h3] at h5
    rw [h2] at h5
    exact h5
  cases err with
  | some e => exact h4
  | none => exact h4

/-- Without dependant group filters, the filter-changed protocol leaves the
wrapper mapping unchanged, in either outcome. -/
theorem onFilterChanged_map {env : GridEnv} (hno : noDependantGroupFilters env = true)
    (s : FilterManager) (cols : List String) :
    (onFilterChanged env s cols).1.allColumnFilters = s.allColumnFilters := by
  unfold onFilterChanged
  rw [updateDependantFilters_eq_self hno]
  have h2 : (updateActiveFilters env s).allColumnFilters = s.allColumnFilters := by
    simp [updateActiveFilters]
  rcases h3 : updateFilterFlagInColumns (updateActiveFilters env s) with ⟨st2, err⟩
  have h4 : st2.allColumnFilters = s.allColumnFilters := by
    have h5 := (updateFilterFlag_proj (updateActiveFilters env s)).2.2.2.1
    rw [h3] at h5
    rw [h2] at h5
    exact h5
  cases err with
  | some e => exact h4
  | none => exact h4

/-- Claim C5: the quick-filter verdict for a raw text equals the verdict
for its uppercased form - both the stored filter text and each examined
column text are normalized to uppercase before the substring search. -/
theorem quickFilterMatches_caseInsensitive (env : GridEnv) (node : RowNode) (t : String) :
    quickFilterMatches env node t = quickFilterMatches env node (toUpperCase t) := by
  by_cases ht : t = ""
  · subst ht
    rfl
  · have ht2 : ¬(toUpperCase t = "") := fun h => ht ((toUpperCase_eq_empty t).mp h)
    have he1 : existsStr (some t) = true := by simp [existsStr, ht]
    have he2 : existsStr (some (toUpperCase t)) = true := by simp [existsStr, ht2]
    unfold quickFilterMatches parseQuickFilter
    cases hcs : env.clientSideRowModel
    · simp [he1, he2, hcs]
    · simp [he1, he2, hcs, toUpperCase_idem]

/-- Claim C10: on a non-client-side row model every quick-filter text
parses to null (with only a console diagnostic), so after setQuickFilter
the quick filter stays absent, no filter-changed event fires, both
quick-presence tests stay false, and row evaluation ignores the
quick-filter parts entirely. -/
theorem quickFilter_disabled_nonClientSide (env : GridEnv) (st : FilterManager)
    (t : Option String) (node : RowNode) (skip : Option Nat)
    (hcs : env.clientSideRowModel = false) (hqf : st.quickFilter = none) :
    ((parseQuickFilter env t).1 = none) ∧
    (setQuickFilter env st t).1.quickFilter = none ∧
    isQuickFilterPresent (setQuickFilter env st t).1 = false ∧
    (setQuickFilter env st t).1.events = st.events ∧
    (setQuickFilter env st t).2 = none ∧
    (existsStr t = true →
      (setQuickFilter env st t).1.warnings = st.warnings ++
        ["AG Grid - Quick filtering only works with the Client-Side Row Model"]) ∧
    isNonAggregateQuickFilterPresent env (setQuickFilter env st t).1 = false ∧
    isAggregateQuickFilterPresent env (setQuickFilter env st t).1 = false ∧
    (∀ parts, doesRowPassFilter env
        { (setQuickFilter env st t).1 with quickFilterParts := parts } node skip =
      doesRowPassFilter env (setQuickFilter env st t).1 node skip) := by
  have hparse : (parseQuickFilter env t).1 = none := by
    unfold parseQuickFilter
    cases he : existsStr t <;> simp [he, hcs]
  have hsame : setQuickFilter env st t =
      ({ st with warnings := st.warnings ++ (parseQuickFilter env t).2 }, none) := by
    unfold setQuickFilter
    simp [hparse, hqf]
  refine ⟨hparse, ?_, ?_, ?_, ?_, ?_, ?_, ?_, ?_⟩
  · rw [hsame]
    exact hqf
  · rw [hsame]
    simp [isQuickFilterPresent, hqf]
  · rw [hsame]
  · rw [hsame]
  · intro he
    rw [hsame]
    unfold parseQuickFilter
    simp [he, hcs]
  · rw [hsame]
    simp [isNonAggregateQuickFilterPresent, isQuickFilterPresent, hqf]
  · rw [hsame]
    simp [isAggregateQuickFilterPresent, isQuickFilterPresent, hqf]
  · intro parts
    have hq2 : (setQuickFilter env st t).1.quickFilter = none := by
      rw [hsame]
      exact hqf
    have hguard1 : isNonAggregateQuickFilterPresent env
        { (setQuickFilter env st t).1 with quickFilterParts := parts } = false := by
      simp [isNonAggregateQuickFilterPresent, isQuickFilterPresent, hq2]
    have hguard2 : isNonAggregateQuickFilterPresent env (setQuickFilter env st t).1 =
        false := by
      simp [isNonAggregateQuickFilterPresent, isQuickFilterPresent, hq2]
    unfold doesRowPassFilter
    rw [hguard1, hguard2]
    simp [isColumnFilterPresent, doColumnFiltersPass]

/-- The claim C10 theorem applied on a server-style row model with a
concrete quick-filter text. -/
theorem quickFilter_disabled_nonClientSide_witness :
    (parseQuickFilter { baseEnv with clientSideRowModel := false } (some "abc")).1 =
        none ∧
    isQuickFilterPresent
      (setQuickFilter { baseEnv with clientSideRowModel := false }
        FilterManager.empty (some "abc")).1 = false ∧
    (setQuickFilter { baseEnv with clientSideRowModel := false }
        FilterManager.empty (some "abc")).1.events = FilterManager.empty.events := by
  have h := quickFilter_disabled_nonClientSide
    { baseEnv with clientSideRowModel := false } FilterManager.empty (some "abc")
    johnNode none rfl rfl
  exact ⟨h.1, h.2.2.1, h.2.2.2.1⟩

/-- Claim C4: setting a quick-filter text stores as parts the space-split
tokens of the uppercased text, and a row passes the quick filter exactly
when every part matches (through the cached or uncached path), a
conjunction independent of the order of the parts. -/
theorem quickFilterParts_conjunction (env : GridEnv) (st : FilterManager)
    (node : RowNode) (raw : String)
    (hcs : env.clientSideRowModel = true) (hraw : ¬(raw = ""))
    (hchange : ¬(st.quickFilter = some (toUpperCase raw))) :
    ((setQuickFilter env st (some raw)).1.quickFilterParts =
        some (splitSpace (toUpperCase raw))) ∧
    (doesRowPassQuickFilter env (setQuickFilter env st (some raw)).1 node = true ↔
      ∀ part ∈ splitSpace (toUpperCase raw),
        (if env.cacheQuickFilter then doesRowPassQuickFilterCache env node part
         else doesRowPassQuickFilterNoCache env node part) = true) ∧
    (∀ (parts₁ parts₂ : List String) (s : FilterManager),
      (∀ p, p ∈ parts₁ ↔ p ∈ parts₂) →
      doesRowPassQuickFilter env { s with quickFilterParts := some parts₁ } node =
        doesRowPassQuickFilter env { s with quickFilterParts := some parts₂ } node) := by
  have hup : ¬(toUpperCase raw = "") := fun h => hraw ((toUpperCase_eq_empty raw).mp h)
  have hparse : parseQuickFilter env (some raw) = (some (toUpperCase raw), []) := by
    unfold parseQuickFilter
    simp [existsStr, hraw, hcs]
  have hparts : (setQuickFilter env st (some raw)).1.quickFilterParts =
      some (splitSpace (toUpperCase raw)) := by
    unfold setQuickFilter
    rw [hparse]
    simp only [List.append_nil]
    rw [if_neg (by simpa using hchange)]
    rw [onFilterChanged_quickFilterParts]
    simp [setQuickFilterParts, hup]
  refine ⟨hparts, ?_, ?_⟩
  · unfold doesRowPassQuickFilter
    rw [hparts]
    simp [List.all_eq_true]
  · intro parts₁ parts₂ s hmem
    unfold doesRowPassQuickFilter
    simp only [Option.getD_some]
    set fn : String → Bool := fun part =>
      if env.cacheQuickFilter then doesRowPassQuickFilterCache env node part
      else doesRowPassQuickFilterNoCache env node part with hfn
    have hiff : (∀ p ∈ parts₁, fn p = true) ↔ (∀ p ∈ parts₂, fn p = true) :=
      ⟨fun h p hp => h p ((hmem p).mpr hp), fun h p hp => h p ((hmem p).mp hp)⟩
    cases h1 : parts₁.all fn <;> cases h2 : parts₂.all fn
    · rfl
    · have := List.all_eq_true.mpr (hiff.mpr (List.all_eq_true.mp h2))
      rw [h1] at this
      exact absurd this (by simp)
    · have := List.all_eq_true.mpr (hiff.mp (List.all_eq_true.mp h1))
      rw [h2] at this
      exact absurd this (by simp)
    · rfl

/-- The claim C4 theorem applied to the text jo smi against a row whose
cached aggregate text holds JOHN and SMITH joined by the separator. -/
theorem quickFilterParts_conjunction_witness :
    (setQuickFilter baseEnv FilterManager.empty (some "jo smi")).1.quickFilterParts =
        some ["JO", "SMI"] ∧
    doesRowPassQuickFilter baseEnv
        (setQuickFilter baseEnv FilterManager.empty (some "jo smi")).1
        { data := [], aggData := [], quickFilterAggregateText := some "JOHN\nSMITH" } =
      true := by
  have h := quickFilterParts_conjunction baseEnv FilterManager.empty
    { data := [], aggData := [], quickFilterAggregateText := some "JOHN\nSMITH" }
    "jo smi" rfl (by decide) (by simp [FilterManager.empty])
  constructor
  · rw [h.1]
    decide
  · exact h.2.1.mpr (by decide)

/-- A produced quick-filter column text is uppercase-normalized and never
empty. -/
theorem getQuickFilterTextForColumn_some (env : GridEnv) (column : Column)
    (node : RowNode) (t : String)
    (hsome : getQuickFilterTextForColumn env column node = some t) :
    toUpperCase t = t ∧ ¬(t = "") := by
  unfold getQuickFilterTextForColumn at hsome
  cases hfmt : env.getQuickFilterText column with
  | some fmt =>
    simp only [hfmt] at hsome
    cases hv : fmt (env.getValue column node) node with
    | none => simp [hv, existsStr] at hsome
    | some v =>
      simp only [hv] at hsome
      by_cases hv0 : v = ""
      · simp [existsStr, hv0] at hsome
      · simp only [existsStr, hv0] at hsome
        simp only [Bool.not_eq_true', decide_eq_false_iff_not, not_false_eq_true,
          if_true, Option.getD_some, Option.some.injEq] at hsome
        refine ⟨?_, ?_⟩
        · rw [← hsome]
          exact toUpperCase_idem v
        · rw [← hsome]
          intro h
          exact hv0 ((toUpperCase_eq_empty v).mp h)
  | none =>
    simp only [hfmt] at hsome
    cases hv : env.getValue column node with
    | none => simp [hv, existsStr] at hsome
    | some v =>
      simp only [hv] at hsome
      by_cases hv0 : v = ""
      · simp [existsStr, hv0] at hsome
      · simp only [existsStr, hv0] at hsome
        simp only [Bool.not_eq_true', decide_eq_false_iff_not, not_false_eq_true,
          if_true, Option.getD_some, Option.some.injEq] at hsome
        refine ⟨?_, ?_⟩
        · rw [← hsome]
          exact toUpperCase_idem v
        · rw [← hsome]
          intro h
          exact hv0 ((toUpperCase_eq_empty v).mp h)

/-- Claim C6: the aggregated quick-filter text takes each eligible column
text through the value getter (overridden by a column-supplied formatter
when present), uppercases it, drops missing values, and joins with the
newline separator; consequently, for a separator-free nonempty search
part, matching against the freshly aggregated cached text coincides with
matching some single eligible column text - adjacent columns never merge
into one token. -/
theorem aggregateQuickFilterText_spec (env : GridEnv) (node : RowNode) (p : String)
    (hp : ¬(p = "")) (hpn : ¬(QUICK_FILTER_SEPARATOR ∈ p.data))
    (hcache : node.quickFilterAggregateText = none) :
    (∀ column fmt, env.getQuickFilterText column = some fmt →
      getQuickFilterTextForColumn env column node =
        (match fmt (env.getValue column node) node with
         | some v => if v = "" then none else some (toUpperCase v)
         | none => none)) ∧
    (∀ column, env.getQuickFilterText column = none →
      getQuickFilterTextForColumn env column node =
        (match env.getValue column node with
         | some v => if v = "" then none else some (toUpperCase v)
         | none => none)) ∧
    (∀ column t, getQuickFilterTextForColumn env column node = some t →
      toUpperCase t = t ∧ ¬(t = "")) ∧
    (doesRowPassQuickFilterCache env node p = doesRowPassQuickFilterNoCache env node p) := by
  have hpd : ¬(p.data = []) := by
    intro h
    exact hp (String.ext_iff.mpr h)
  refine ⟨?_, ?_, ?_, ?_⟩
  · intro column fmt hfmt
    unfold getQuickFilterTextForColumn
    simp only [hfmt]
    cases hv : fmt (env.getValue column node) node with
    | none => simp [existsStr]
    | some v =>
      by_cases hv0 : v = ""
      · simp [existsStr, hv0]
      · simp [existsStr, hv0]
  · intro column hfmt
    unfold getQuickFilterTextForColumn
    simp only [hfmt]
    cases hv : env.getValue column node with
    | none => simp [existsStr]
    | some v =>
      by_cases hv0 : v = ""
      · simp [existsStr, hv0]
      · simp [existsStr, hv0]
  · intro column t hsome
    exact getQuickFilterTextForColumn_some env column node t hsome
  · have heff : effectiveAggregateText env node = aggregateRowForQuickFilter env node := by
      unfold effectiveAggregateText
      rw [hcache]
    have hjoin : ∀ parts : List String,
        occursIn p.data (joinSep QUICK_FILTER_SEPARATOR (parts.map String.data)) ↔
          ∃ s ∈ parts, occursIn p.data s.data := by
      intro parts
      rw [occursIn_joinSep hpd hpn]
      constructor
      · rintro ⟨l, hl, ho⟩
        obtain ⟨s, hs, rfl⟩ := List.mem_map.mp hl
        exact ⟨s, hs, ho⟩
      · rintro ⟨s, hs, ho⟩
        exact ⟨s.data, List.mem_map_of_mem _ hs, ho⟩
    have hmain : doesRowPassQuickFilterCache env node p = true ↔
        doesRowPassQuickFilterNoCache env node p = true := by
      unfold doesRowPassQuickFilterCache
      rw [heff]
      unfold aggregateRowForQuickFilter joinNewline
      rw [containsSub_iff]
      rw [show (String.mk (joinSep QUICK_FILTER_SEPARATOR
          ((env.quickFilterColumns.filterMap fun c =>
            getQuickFilterTextForColumn env c node).map String.data))).data =
          joinSep QUICK_FILTER_SEPARATOR
          ((env.quickFilterColumns.filterMap fun c =>
            getQuickFilterTextForColumn env c node).map String.data) from rfl]
      rw [hjoin]
      unfold doesRowPassQuickFilterNoCache
      rw [List.any_eq_true]
      constructor
      · rintro ⟨s, hs, ho⟩
        obtain ⟨c, hc, hcs⟩ := List.mem_filterMap.mp hs
        refine ⟨c, hc, ?_⟩
        have hne := (getQuickFilterTextForColumn_some env c node s hcs).2
        rw [hcs]
        have hcsub : containsSub s p = true := (containsSub_iff s p).mpr ho
        simp [existsStr, hne, hcsub]
      · rintro ⟨c, hc, hpass⟩
        cases hcs : getQuickFilterTextForColumn env c node with
        | none =>
          rw [hcs] at hpass
          simp [existsStr] at hpass
        | some s =>
          rw [hcs] at hpass
          simp only [existsStr, Option.getD_some, Bool.and_eq_true] at hpass
          refine ⟨s, List.mem_filterMap.mpr ⟨c, hc, hcs⟩, ?_⟩
          rw [← containsSub_iff]
          exact hpass.2
    cases hA : doesRowPassQuickFilterCache env node p with
    | true =>
      cases hB : doesRowPassQuickFilterNoCache env node p with
      | true => rfl
      | false =>
        have := hmain.mp hA
        rw [hB] at this
        exact absurd this (by simp)
    | false =>
      cases hB : doesRowPassQuickFilterNoCache env node p with
      | true =>
        have := hmain.mpr hB
        rw [hA] at this
        exact absurd this (by simp)
      | false => rfl

/-- The claim C6 theorem applied to the two-column name fixture with the
search part SMI. -/
theorem aggregateQuickFilterText_spec_witness :
    doesRowPassQuickFilterCache dataEnv johnNode "SMI" =
      doesRowPassQuickFilterNoCache dataEnv johnNode "SMI" ∧
    doesRowPassQuickFilterCache dataEnv johnNode "SMI" = true :=
  ⟨(aggregateQuickFilterText_spec dataEnv johnNode "SMI" (by decide) (by decide)
      rfl).2.2.2,
   by decide⟩

/-- Claim C7, failing part: during setFilterModel, a resolved filter
missing setModel gets its diagnostic logged but - the source still
invoking the absent method - the batch is aborted by the raised TypeError:
no filter-changed event fires and the later column b is never applied,
instead of the column being skipped and the batch continuing as the
specification demands. -/
theorem setFilterModel_missingSetModel_aborts :
    (setFilterModel baseEnv brokenSt (some [("a", "m2"), ("b", "mb")])).2 =
        some "TypeError: filter.setModel is not a function" ∧
    (setFilterModel baseEnv brokenSt (some [("a", "m2"), ("b", "mb")])).1.warnings =
        ["AG Grid: filter missing setModel method, which is needed for setFilterModel"] ∧
    (setFilterModel baseEnv brokenSt (some [("a", "m2"), ("b", "mb")])).1.events = [] ∧
    wrapperModelAt (setFilterModel baseEnv brokenSt
        (some [("a", "m2"), ("b", "mb")])).1 "a" = some (some "m1") ∧
    wrapperModelAt (setFilterModel baseEnv brokenSt
        (some [("a", "m2"), ("b", "mb")])).1 "b" = some none := by
  refine ⟨rfl, rfl, rfl, rfl, rfl⟩

/-- A successful lookup returns a binding of the list. -/
theorem alookup_mem {α : Type} :
    ∀ {l : List (String × α)} {k : String} {v : α},
      alookup l k = some v → (k, v) ∈ l := by
  intro l
  induction l with
  | nil =>
    intro k v h
    simp [alookup] at h
  | cons x rest ih =>
    intro k v h
    cases x with
    | mk c y =>
      by_cases hc : c = k
      · subst hc
        have hyv : y = v := by simpa [alookup] using h
        subst hyv
        exact List.mem_cons_self _ _
      · simp only [alookup, if_neg hc] at h
        exact List.mem_cons_of_mem _ (ih h)

/-- Claim C9: a second wrapper request without an intervening destroy
returns the same wrapper object and changes nothing; disposing the wrapper
of an instance honouring the setModel contract (without it the unguarded
setModel-null call throws and no teardown happens) empties the instance
model, raises nothing, unmaps the wrapper, clears the column filter-active
flag and emits a filter-destroyed event; a request after the disposal
constructs a wrapper with a fresh identity. -/
theorem filterWrapper_lifecycle (env : GridEnv) (st : FilterManager) (column : Column)
    (source : FilterRequestSource) (w : FilterWrapper) (f : FilterComp)
    (hAllow : column.filterAllowed = true)
    (hFresh : ∀ kv ∈ st.allColumnFilters, kv.2.wrapperId < st.nextId)
    (hCoh : ∀ kv ∈ st.allColumnFilters, kv.2.column.colId = kv.1)
    (hw : (getOrCreateFilterWrapper env st column source).1 = some w)
    (hres : w.filterPromise = some (.resolved f))
    (hset : f.hasSetModel = true) :
    (getOrCreateFilterWrapper env (getOrCreateFilterWrapper env st column source).2
        column source = (some w, (getOrCreateFilterWrapper env st column source).2)) ∧
    ((disposeFilterWrapper (getOrCreateFilterWrapper env st column source).2 w
        "api").2.1 = some { f with model := none }) ∧
    ((disposeFilterWrapper (getOrCreateFilterWrapper env st column source).2 w
        "api").2.2 = none) ∧
    (alookup (disposeFilterWrapper (getOrCreateFilterWrapper env st column source).2 w
        "api").1.allColumnFilters column.colId = none) ∧
    (alookup (disposeFilterWrapper (getOrCreateFilterWrapper env st column source).2 w
        "api").1.columnFilterActive column.colId = some false) ∧
    ((disposeFilterWrapper (getOrCreateFilterWrapper env st column source).2 w
        "api").1.events =
      (getOrCreateFilterWrapper env st column source).2.events ++
        [GridEvent.filterDestroyed "api" column.colId]) ∧
    (∀ w2, (getOrCreateFilterWrapper env
        (disposeFilterWrapper (getOrCreateFilterWrapper env st column source).2 w
          "api").1 column source).1 = some w2 →
      ¬(w2.wrapperId = w.wrapperId)) := by
  have hnotall : (!column.filterAllowed) = false := by rw [hAllow]; rfl
  have hkey : cachedFilter (getOrCreateFilterWrapper env st column source).2 column =
        some w ∧
      w.column.colId = column.colId ∧
      w.wrapperId < (getOrCreateFilterWrapper env st column source).2.nextId := by
    cases hcached : cachedFilter st column with
    | some w0 =>
      have hfirst : getOrCreateFilterWrapper env st column source = (some w0, st) := by
        unfold getOrCreateFilterWrapper
        rw [hnotall, if_neg Bool.false_ne_true, hcached]
      have hw0 : w0 = w := by
        rw [hfirst] at hw
        exact (Option.some.injEq _ _).mp hw
      subst hw0
      have hmem : (column.colId, w0) ∈ st.allColumnFilters := alookup_mem hcached
      refine ⟨?_, hCoh (column.colId, w0) hmem, ?_⟩
      · rw [hfirst]
        exact hcached
      · rw [hfirst]
        exact hFresh (column.colId, w0) hmem
    | none =>
      have hfirst : getOrCreateFilterWrapper env st column source =
          (some (createFilterWrapper env st column).1,
           { (createFilterWrapper env st column).2 with
              allColumnFilters := (createFilterWrapper env st column).2.allColumnFilters ++
                [(column.colId, (createFilterWrapper env st column).1)],
              allColumnListeners :=
                (createFilterWrapper env st column).2.allColumnListeners ++
                  [column.colId] }) := by
        unfold getOrCreateFilterWrapper
        rw [hnotall, if_neg Bool.false_ne_true, hcached]
      have hwdef : w = (createFilterWrapper env st column).1 := by
        rw [hfirst] at hw
        exact ((Option.some.injEq _ _).mp hw).symm
      refine ⟨?_, ?_, ?_⟩
      · rw [hfirst]
        unfold cachedFilter
        simp only
        rw [hwdef]
        exact alookup_append_single hcached _
      · rw [hwdef]
        rfl
      · rw [hfirst, hwdef]
        show st.nextId < st.nextId + 1
        omega
  obtain ⟨hlookup1, hwcol, hnext⟩ := hkey
  have hdisp : disposeFilterWrapper (getOrCreateFilterWrapper env st column source).2 w
      "api" =
      ({ (getOrCreateFilterWrapper env st column source).2 with
          columnFilterActive :=
            upsertFlag (getOrCreateFilterWrapper env st column source).2.columnFilterActive
              w.column.colId false,
          allColumnFilters :=
            (getOrCreateFilterWrapper env st column source).2.allColumnFilters.filter
              fun kv => !(kv.1 = w.column.colId),
          events := (getOrCreateFilterWrapper env st column source).2.events ++
            [.filterDestroyed "api" w.column.colId] },
       some { f with model := none }, none) := by
    unfold disposeFilterWrapper
    simp only [hres]
    rw [if_pos hset]
  have hsecond : ∀ s : FilterManager, cachedFilter s column = some w →
      getOrCreateFilterWrapper env s column source = (some w, s) := by
    intro s hs
    unfold getOrCreateFilterWrapper
    rw [hnotall, if_neg Bool.false_ne_true, hs]
  have hcreate : ∀ s : FilterManager, cachedFilter s column = none →
      (getOrCreateFilterWrapper env s column source).1 =
        some { wrapperId := s.nextId, column := column,
               filterPromise := env.newFilter column } := by
    intro s hs
    unfold getOrCreateFilterWrapper createFilterWrapper
    rw [hnotall, if_neg Bool.false_ne_true, hs]
  refine ⟨?_, ?_, ?_, ?_, ?_, ?_, ?_⟩
  · exact hsecond _ hlookup1
  · rw [hdisp]
  · rw [hdisp]
  · rw [hdisp]
    simp only
    rw [hwcol]
    exact alookup_filter_self _ _
  · rw [hdisp]
    simp only
    rw [hwcol]
    exact alookup_upsertFlag _ _ _
  · rw [hdisp]
    simp only
    rw [hwcol]
  · intro w2 hw2
    rw [hdisp] at hw2
    have hlook2 : cachedFilter
        ({ (getOrCreateFilterWrapper env st column source).2 with
            columnFilterActive :=
              upsertFlag
                (getOrCreateFilterWrapper env st column source).2.columnFilterActive
                w.column.colId false,
            allColumnFilters :=
              (getOrCreateFilterWrapper env st column source).2.allColumnFilters.filter
                fun kv => !(kv.1 = w.column.colId),
            events := (getOrCreateFilterWrapper env st column source).2.events ++
              [.filterDestroyed "api" w.column.colId] } : FilterManager) column = none := by
      unfold cachedFilter
      simp only
      rw [hwcol]
      exact alookup_filter_self _ _
    rw [hcreate _ hlook2] at hw2
    simp only [Option.some.injEq] at hw2
    have hid : w2.wrapperId =
        (getOrCreateFilterWrapper env st column source).2.nextId := by
      rw [← hw2]
    rw [hid]
    omega

/-- The claim C9 theorem applied to a concrete empty manager with a
resolving factory. -/
theorem filterWrapper_lifecycle_witness :
    (getOrCreateFilterWrapper env9
        (getOrCreateFilterWrapper env9 FilterManager.empty (mkColumn "a") .noUi).2
        (mkColumn "a") .noUi =
      (some wrap9,
        (getOrCreateFilterWrapper env9 FilterManager.empty (mkColumn "a") .noUi).2)) ∧
    ((disposeFilterWrapper
        (getOrCreateFilterWrapper env9 FilterManager.empty (mkColumn "a") .noUi).2
        wrap9 "api").2.1 = some { mkComp 1 none with model := none }) ∧
    (alookup (disposeFilterWrapper
        (getOrCreateFilterWrapper env9 FilterManager.empty (mkColumn "a") .noUi).2
        wrap9 "api").1.allColumnFilters "a" = none) ∧
    (∀ w2, (getOrCreateFilterWrapper env9
        (disposeFilterWrapper
          (getOrCreateFilterWrapper env9 FilterManager.empty (mkColumn "a") .noUi).2
          wrap9 "api").1 (mkColumn "a") .noUi).1 = some w2 →
      ¬(w2.wrapperId = wrap9.wrapperId)) := by
  have h := filterWrapper_lifecycle env9 FilterManager.empty (mkColumn "a") .noUi
    wrap9 (mkComp 1 none) rfl (by simp [FilterManager.empty])
    (by simp [FilterManager.empty]) rfl rfl rfl
  exact ⟨h.1, h.2.1, h.2.2.2.1, h.2.2.2.2.2.2⟩

/-- An absent key has no entry in the exported model. -/
theorem alookup_exportedModel_eq_none {l : List (String × FilterWrapper)} {cid : String}
    (h : ¬(cid ∈ l.map Prod.fst)) : alookup (exportedModel l) cid = none := by
  induction l with
  | nil => rfl
  | cons kv rest ih =>
    have hne : ¬(kv.1 = cid) := by
      intro he
      exact h (by simp [he])
    have hrest : ¬(cid ∈ rest.map Prod.fst) := by
      intro hm
      exact h (by simp [hm])
    unfold exportedModel
    rw [List.filterMap_cons]
    cases hm : (entryModel kv.2).map fun m => (kv.1, m) with
    | none => exact ih hrest
    | some e =>
      obtain ⟨m, _, rfl⟩ := Option.map_eq_some'.mp hm
      simp only [alookup, if_neg hne]
      exact ih hrest

/-- Under unique keys, looking a mapped key up in the exported model gives
exactly that wrapper's exported entry. -/
theorem alookup_exportedModel_self :
    ∀ {l : List (String × FilterWrapper)}, (l.map Prod.fst).Nodup →
      ∀ kv ∈ l, alookup (exportedModel l) kv.1 = entryModel kv.2 := by
  intro l
  induction l with
  | nil =>
    intro _ kv hkv
    simp at hkv
  | cons x rest ih =>
    intro hnodup kv hkv
    have hnodup2 : (x.1 :: rest.map Prod.fst).Nodup := by
      simpa using hnodup
    have hx : ¬(x.1 ∈ rest.map Prod.fst) := (List.nodup_cons.mp hnodup2).1
    have hrest : (rest.map Prod.fst).Nodup := (List.nodup_cons.mp hnodup2).2
    rcases List.mem_cons.mp hkv with rfl | hkv'
    · unfold exportedModel
      rw [List.filterMap_cons]
      cases hm : (entryModel kv.2).map fun m => (kv.1, m) with
      | none =>
        have hen : entryModel kv.2 = none := by
          cases he : entryModel kv.2 with
          | none => rfl
          | some m => rw [he] at hm; simp at hm
        rw [hen]
        exact alookup_exportedModel_eq_none hx
      | some e =>
        obtain ⟨m, hment, rfl⟩ := Option.map_eq_some'.mp hm
        simp [alookup, hment]
    · have hne : ¬(x.1 = kv.1) := by
        intro he
        exact hx (by rw [he]; exact List.mem_map_of_mem Prod.fst hkv')
      unfold exportedModel
      rw [List.filterMap_cons]
      cases hm : (entryModel x.2).map fun m => (x.1, m) with
      | none => exact ih hrest kv hkv'
      | some e =>
        obtain ⟨m, _, rfl⟩ := Option.map_eq_some'.mp hm
        simp only [alookup, if_neg hne]
        exact ih hrest kv hkv'

/-- Re-applying per-wrapper exactly the models the wrappers already export
leaves every wrapper unchanged, logs nothing, raises nothing, and - every
promise being resolved - settles within the turn. -/
theorem applyExisting_self (m : List (String × FilterModel)) :
    ∀ l : List (String × FilterWrapper),
      (∀ kv ∈ l, goodWrapper kv.2 = true ∧ alookup m kv.1 = entryModel kv.2) →
      applyExisting m l = (l, [], none, true) := by
  intro l
  induction l with
  | nil =>
    intro _
    rfl
  | cons kv rest ih =>
    intro h
    obtain ⟨hgood, hmod⟩ := h kv (List.mem_cons_self kv rest)
    have htail : applyExisting m rest = (rest, [], none, true) :=
      ih fun kv2 hkv2 => h kv2 (List.mem_cons_of_mem kv hkv2)
    cases kv with
    | mk cid w =>
      have hgood2 : goodWrapper w = true := hgood
      have hmodX : alookup m cid = entryModel w := hmod
      cases hp : w.filterPromise with
      | none =>
        simp only [goodWrapper, hp] at hgood2
        exact absurd hgood2 (by simp)
      | some pr =>
        cases pr with
        | pending =>
          simp only [goodWrapper, hp] at hgood2
          exact absurd hgood2 (by simp)
        | resolved f =>
          simp only [goodWrapper, hp, Bool.and_eq_true] at hgood2
          obtain ⟨hset, hget⟩ := hgood2
          have hmod2 : alookup m cid = f.model := by
            rw [hmodX]
            simp [entryModel, hp, hget]
          have hcomp : ({ w with filterPromise := some (AgPromise.resolved { f with model := alookup m cid }) } : FilterWrapper) = w := by
            rw [hmod2]
            rw [show ({ f with model := f.model } : FilterComp) = f from rfl]
            rw [← hp]
          show applyExisting m ((cid, w) :: rest) = ((cid, w) :: rest, [], none, true)
          unfold applyExisting
          rw [hp]
          simp only [setModelOnFilterWrapper]
          rw [if_pos hset]
          simp only [htail]
          rw [hcomp]
          rfl

/-- Every key of the exported model is a key of the mapping. -/
theorem exportedModel_keys_hit (l : List (String × FilterWrapper)) :
    ∀ kv ∈ exportedModel l, (alookup l kv.1).isSome = true := by
  intro kv hkv
  unfold exportedModel at hkv
  obtain ⟨src, hsrc, hmap⟩ := List.mem_filterMap.mp hkv
  apply alookup_isSome_of_mem_keys
  obtain ⟨m, _, rfl⟩ := Option.map_eq_some'.mp hmap
  exact List.mem_map_of_mem Prod.fst hsrc

/-- Creating and applying the leftover keys never emits an event. -/
theorem createAndApply_events (env : GridEnv) :
    ∀ (ks : List (String × FilterModel)) (s : FilterManager),
      ((createAndApply env ks s).1).events = s.events := by
  intro ks
  induction ks with
  | nil =>
    intro s
    rfl
  | cons kv rest ih =>
    intro s
    cases kv with
    | mk cid m =>
      show ((createAndApply env ((cid, m) :: rest) s).1).events = s.events
      unfold createAndApply
      split
      · rw [ih]
      · rename_i column hcoleq
        split
        · rw [ih]
        · split
          · rename_i st' heq
            rw [ih]
            have hpj := (getOrCreate_proj env s column FilterRequestSource.noUi).2.2.1
            rw [heq] at hpj
            exact hpj
          · rename_i w st' heq
            have hpj := (getOrCreate_proj env s column FilterRequestSource.noUi).2.2.1
            rw [heq] at hpj
            split
            · exact hpj
            · rename_i p ws s0 hsm
              rcases hrec : createAndApply env rest
                  { st' with
                      allColumnFilters :=
                        setWrapperPromise st'.allColumnFilters column.colId p,
                      warnings := st'.warnings ++ ws } with ⟨st2, err2, s2⟩
              have h2 := ih { st' with
                  allColumnFilters := setWrapperPromise st'.allColumnFilters column.colId p,
                  warnings := st'.warnings ++ ws }
              rw [hrec] at h2
              show st2.events = s.events
              rw [h2]
              exact hpj

/-- The filter-changed protocol preserves the exported model when there are
no dependant group filters. -/
theorem onFilterChanged_getFilterModel {env : GridEnv}
    (hno : noDependantGroupFilters env = true) (s : FilterManager) (cols : List String) :
    getFilterModel (onFilterChanged env s cols).1 = getFilterModel s := by
  unfold getFilterModel
  rw [onFilterChanged_map hno]

/-- A good wrapper's promise has settled. -/
theorem goodWrapper_settled (w : FilterWrapper) (h : goodWrapper w = true) :
    promiseSettled w.filterPromise = true := by
  cases hp : w.filterPromise with
  | none => rfl
  | some pr =>
    cases pr with
    | pending =>
      simp only [goodWrapper, hp] at h
      exact absurd h (by simp)
    | resolved f => rfl

/-- An apply against a settled promise settles within the turn. -/
theorem setModelOnFilterWrapper_settled (p : Option (AgPromise FilterComp))
    (nm : Option FilterModel) (h : promiseSettled p = true) :
    (setModelOnFilterWrapper p nm).2.2.2 = true := by
  cases p with
  | none => rfl
  | some pr =>
    cases pr with
    | pending => simp [promiseSettled] at h
    | resolved f =>
      by_cases hs : f.hasSetModel = true
      · simp only [setModelOnFilterWrapper]
        rw [if_pos hs]
      · simp only [setModelOnFilterWrapper]
        rw [if_neg hs]

/-- An apply against a settled promise leaves a settled promise in the
wrapper slot. -/
theorem setModelOnFilterWrapper_promise (p : Option (AgPromise FilterComp))
    (nm : Option FilterModel) (h : promiseSettled p = true) :
    promiseSettled (setModelOnFilterWrapper p nm).1 = true := by
  cases p with
  | none => rfl
  | some pr =>
    cases pr with
    | pending => simp [promiseSettled] at h
    | resolved f =>
      by_cases hs : f.hasSetModel = true
      · simp only [setModelOnFilterWrapper]
        rw [if_pos hs]
        rfl
      · simp only [setModelOnFilterWrapper]
        rw [if_neg hs]
        rfl

/-- Fanning a model out over settled wrappers settles every pushed apply
within the turn. -/
theorem applyExisting_settled (m : List (String × FilterModel)) :
    ∀ l : List (String × FilterWrapper),
      (∀ kv ∈ l, promiseSettled kv.2.filterPromise = true) →
      (applyExisting m l).2.2.2 = true := by
  intro l
  induction l with
  | nil =>
    intro _
    rfl
  | cons kv rest ih =>
    intro h
    cases kv with
    | mk cid w =>
      have hw : promiseSettled w.filterPromise = true :=
        h (cid, w) (List.mem_cons_self _ _)
      have htail : (applyExisting m rest).2.2.2 = true :=
        ih fun kv2 hkv2 => h kv2 (List.mem_cons_of_mem _ hkv2)
      show (applyExisting m ((cid, w) :: rest)).2.2.2 = true
      unfold applyExisting
      split
      · rename_i p ws e s0 hsm
        have hs0 : s0 = true := by
          have hx := setModelOnFilterWrapper_settled w.filterPromise (alookup m cid) hw
          rw [hsm] at hx
          exact hx
        exact hs0
      · rename_i p ws s0 hsm
        have hs0 : s0 = true := by
          have hx := setModelOnFilterWrapper_settled w.filterPromise (alookup m cid) hw
          rw [hsm] at hx
          exact hx
        rcases happ : applyExisting m rest with ⟨r2, ws2, e2, s2⟩
        have hs2 : s2 = true := by
          first
          | exact htail
          | (rw [happ] at htail; exact htail)
        show (s0 && s2) = true
        rw [hs0, hs2]
        rfl

/-- Fanning a model out over settled wrappers leaves every stored promise
settled. -/
theorem applyExisting_wrappersSettled (m : List (String × FilterModel)) :
    ∀ l : List (String × FilterWrapper),
      (∀ kv ∈ l, promiseSettled kv.2.filterPromise = true) →
      ∀ kv ∈ (applyExisting m l).1, promiseSettled kv.2.filterPromise = true := by
  intro l
  induction l with
  | nil =>
    intro _ kv hkv
    simp [applyExisting] at hkv
  | cons kv0 rest ih =>
    intro h kv hkv
    cases kv0 with
    | mk cid w =>
      have hw : promiseSettled w.filterPromise = true :=
        h (cid, w) (List.mem_cons_self _ _)
      have htailh : ∀ kv2 ∈ rest, promiseSettled kv2.2.filterPromise = true :=
        fun kv2 hkv2 => h kv2 (List.mem_cons_of_mem _ hkv2)
      rcases hsm : setModelOnFilterWrapper w.filterPromise (alookup m cid)
        with ⟨p, ws, err, s0⟩
      have hp3 : promiseSettled p = true := by
        have hx := setModelOnFilterWrapper_promise w.filterPromise (alookup m cid) hw
        rw [hsm] at hx
        exact hx
      unfold applyExisting at hkv
      rw [hsm] at hkv
      cases err with
      | some e =>
        have hkv2 : kv ∈ (cid, { w with filterPromise := p }) :: rest := hkv
        rcases List.mem_cons.mp hkv2 with rfl | hm
        · exact hp3
        · exact htailh kv hm
      | none =>
        rcases happ : applyExisting m rest with ⟨r2, ws2, e2, s2⟩
        rw [happ] at hkv
        have hkv2 : kv ∈ (cid, { w with filterPromise := p }) :: r2 := hkv
        rcases List.mem_cons.mp hkv2 with rfl | hm
        · exact hp3
        · have hih := ih htailh kv
          rw [happ] at hih
          exact hih hm

/-- Rewriting one column's stored promise with a settled one keeps the
mapping settled. -/
theorem setWrapperPromise_settled {l : List (String × FilterWrapper)} {cid : String}
    {p : Option (AgPromise FilterComp)}
    (hl : ∀ kv ∈ l, promiseSettled kv.2.filterPromise = true)
    (hp : promiseSettled p = true) :
    ∀ kv ∈ setWrapperPromise l cid p, promiseSettled kv.2.filterPromise = true := by
  intro kv hkv
  unfold setWrapperPromise at hkv
  obtain ⟨kv0, hkv0, heq⟩ := List.mem_map.mp hkv
  by_cases hc : kv0.1 = cid
  · rw [if_pos hc] at heq
    rw [← heq]
    exact hp
  · rw [if_neg hc] at heq
    rw [← heq]
    exact hl kv0 hkv0

/-- A wrapper request hands back a settled wrapper and keeps the mapping
settled when the factory never returns a pending promise. -/
theorem getOrCreate_settled (env : GridEnv) (s : FilterManager) (c : Column)
    (src : FilterRequestSource)
    (hfac : ∀ c2, promiseSettled (env.newFilter c2) = true)
    (hs : ∀ kv ∈ s.allColumnFilters, promiseSettled kv.2.filterPromise = true) :
    (∀ w, (getOrCreateFilterWrapper env s c src).1 = some w →
      promiseSettled w.filterPromise = true) ∧
    (∀ kv ∈ (getOrCreateFilterWrapper env s c src).2.allColumnFilters,
      promiseSettled kv.2.filterPromise = true) := by
  unfold getOrCreateFilterWrapper
  by_cases ha : (!c.filterAllowed) = true
  · rw [if_pos ha]
    refine ⟨?_, hs⟩
    intro w hw
    exact Option.noConfusion hw
  · rw [if_neg ha]
    cases hc : cachedFilter s c with
    | some w0 =>
      refine ⟨?_, hs⟩
      intro w hw
      have hw2 : some w0 = some w := hw
      have hww : w0 = w := (Option.some.injEq _ _).mp hw2
      rw [← hww]
      exact hs (c.colId, w0)
        (alookup_mem (show alookup s.allColumnFilters c.colId = some w0 from hc))
    | none =>
      constructor
      · intro w hw
        have hw2 : some (createFilterWrapper env s c).1 = some w := hw
        have hww : (createFilterWrapper env s c).1 = w := (Option.some.injEq _ _).mp hw2
        rw [← hww]
        exact hfac c
      · intro kv hkv
        have hkv2 : kv ∈ s.allColumnFilters ++
            [(c.colId, (createFilterWrapper env s c).1)] := hkv
        rcases List.mem_append.mp hkv2 with hm | hm
        · exact hs kv hm
        · have hkv3 : kv = (c.colId, (createFilterWrapper env s c).1) :=
            List.mem_singleton.mp hm
          rw [hkv3]
          exact hfac c

/-- Creating and applying the leftover keys settles every pushed apply when
the factory and the incoming mapping are settled. -/
theorem createAndApply_settled (env : GridEnv)
    (hfac : ∀ c, promiseSettled (env.newFilter c) = true) :
    ∀ (ks : List (String × FilterModel)) (s : FilterManager),
      (∀ kv ∈ s.allColumnFilters, promiseSettled kv.2.filterPromise = true) →
      (createAndApply env ks s).2.2 = true := by
  intro ks
  induction ks with
  | nil =>
    intro s _
    rfl
  | cons kv rest ih =>
    intro s hs
    cases kv with
    | mk cid m =>
      show (createAndApply env ((cid, m) :: rest) s).2.2 = true
      unfold createAndApply
      split
      · exact ih _ hs
      · rename_i column hcoleq
        split
        · exact ih _ hs
        · split
          · rename_i st' heq
            have hmap :=
              (getOrCreate_settled env s column FilterRequestSource.noUi hfac hs).2
            rw [heq] at hmap
            exact ih _ hmap
          · rename_i w st' heq
            have hg := getOrCreate_settled env s column FilterRequestSource.noUi hfac hs
            have hw : promiseSettled w.filterPromise = true := by
              apply hg.1 w
              rw [heq]
            have hmap : ∀ kv2 ∈ st'.allColumnFilters,
                promiseSettled kv2.2.filterPromise = true := by
              have h2 := hg.2
              rw [heq] at h2
              exact h2
            split
            · rename_i p ws e s0 hsm
              have hs0 : s0 = true := by
                have hx := setModelOnFilterWrapper_settled w.filterPromise (some m) hw
                rw [hsm] at hx
                exact hx
              exact hs0
            · rename_i p ws s0 hsm
              have hs0 : s0 = true := by
                have hx := setModelOnFilterWrapper_settled w.filterPromise (some m) hw
                rw [hsm] at hx
                exact hx
              have hp3 : promiseSettled p = true := by
                have hx := setModelOnFilterWrapper_promise w.filterPromise (some m) hw
                rw [hsm] at hx
                exact hx
              have hmap2 : ∀ kv2 ∈ setWrapperPromise st'.allColumnFilters column.colId p,
                  promiseSettled kv2.2.filterPromise = true :=
                setWrapperPromise_settled hmap hp3
              rcases hrec : createAndApply env rest
                  { st' with
                      allColumnFilters :=
                        setWrapperPromise st'.allColumnFilters column.colId p,
                      warnings := st'.warnings ++ ws } with ⟨st2, err2, s2⟩
              have hs2 : s2 = true := by
                have hx := ih { st' with
                    allColumnFilters :=
                      setWrapperPromise st'.allColumnFilters column.colId p,
                    warnings := st'.warnings ++ ws } hmap2
                first
                | exact hx
                | (rw [hrec] at hx; exact hx)
              show (s0 && s2) = true
              rw [hs0, hs2]
              rfl

/-- Claim C2: setFilterModel joins every per-column apply before acting -
the diff-and-emit continuation runs only once all applies settle, which
over resolved wrappers and a non-pending factory is within the turn -
then compares the exported model before and after and emits exactly one
filter-changed event naming exactly the columns whose serialized model
changed - and none at all when nothing changed; in particular re-applying
the exported model is the identity: setFilterModel (getFilterModel)
leaves the state untouched and emits nothing. -/
theorem setFilterModel_diff_and_idempotent (env : GridEnv) (st : FilterManager)
    (hnodup : (st.allColumnFilters.map Prod.fst).Nodup)
    (hgood : ∀ kv ∈ st.allColumnFilters, goodWrapper kv.2 = true)
    (hno : noDependantGroupFilters env = true)
    (hfac : ∀ c, promiseSettled (env.newFilter c) = true) :
    (setFilterModel env st (some (getFilterModel st)) = (st, none)) ∧
    (∀ m st2, setFilterModel env st (some m) = (st2, none) →
      st2.events = st.events ++
        (if changedCols st st2 = [] then []
         else [GridEvent.filterChanged (changedCols st st2)])) := by
  constructor
  · have happ : applyExisting (getFilterModel st) st.allColumnFilters =
        (st.allColumnFilters, [], none, true) := by
      apply applyExisting_self
      intro kv hkv
      refine ⟨hgood kv hkv, ?_⟩
      show alookup (exportedModel st.allColumnFilters) kv.1 = entryModel kv.2
      exact alookup_exportedModel_self hnodup kv hkv
    have hrem : (getFilterModel st).filter
        (fun kv => (alookup st.allColumnFilters kv.1).isNone) = [] := by
      rw [List.filter_eq_nil_iff]
      intro kv hkv
      have hhit := exportedModel_keys_hit st.allColumnFilters kv hkv
      cases hl : alookup st.allColumnFilters kv.1 with
      | none =>
        rw [hl] at hhit
        simp at hhit
      | some v => simp [hl]
    have hst1 : ({ st with
        allColumnFilters := st.allColumnFilters,
        warnings := st.warnings ++ [] } : FilterManager) = st := by
      rw [List.append_nil]
    have hcols : (st.allColumnFilters.filterMap fun kv =>
        if alookup (getFilterModel st) kv.1 = alookup (getFilterModel st) kv.1
        then none else some kv.2.column.colId) = [] := by
      rw [List.filterMap_eq_nil_iff]
      intro kv _
      rw [if_pos rfl]
    show (match applyExisting (getFilterModel st) st.allColumnFilters with
      | (wrappers, ws, some e, _) =>
        ({ st with allColumnFilters := wrappers, warnings := st.warnings ++ ws }, some e)
      | (wrappers, ws, none, s1) =>
        match createAndApply env
            ((getFilterModel st).filter fun kv =>
              (alookup st.allColumnFilters kv.1).isNone)
            { st with allColumnFilters := wrappers, warnings := st.warnings ++ ws } with
        | (st2, some e, _) => (st2, some e)
        | (st2, none, s2) =>
          if s1 && s2 then finishSetFilterModel env st2 (getFilterModel st)
          else (st2, none)) = (st, none)
    rw [happ]
    show (match createAndApply env
        ((getFilterModel st).filter fun kv => (alookup st.allColumnFilters kv.1).isNone)
        ({ st with
            allColumnFilters := st.allColumnFilters,
            warnings := st.warnings ++ [] }) with
      | (st2, some e, _) => (st2, some e)
      | (st2, none, s2) =>
        if true && s2 then finishSetFilterModel env st2 (getFilterModel st)
        else (st2, none)) = (st, none)
    rw [hst1, hrem]
    show finishSetFilterModel env st (getFilterModel st) = (st, none)
    unfold finishSetFilterModel
    rw [hcols]
    rw [if_pos rfl]
  · intro m st2 hrun
    have hsettled : ∀ kv ∈ st.allColumnFilters,
        promiseSettled kv.2.filterPromise = true :=
      fun kv hkv => goodWrapper_settled kv.2 (hgood kv hkv)
    have h0 : setFilterModel env st (some m) =
        (match applyExisting m st.allColumnFilters with
         | (wrappers, ws, some e, _) =>
           ({ st with allColumnFilters := wrappers, warnings := st.warnings ++ ws },
            some e)
         | (wrappers, ws, none, s1) =>
           match createAndApply env
               (m.filter fun kv => (alookup st.allColumnFilters kv.1).isNone)
               { st with
                  allColumnFilters := wrappers,
                  warnings := st.warnings ++ ws } with
           | (st2, some e, _) => (st2, some e)
           | (st2, none, s2) =>
             if s1 && s2 then finishSetFilterModel env st2 (getFilterModel st)
             else (st2, none)) := rfl
    rw [h0] at hrun
    rcases happ2 : applyExisting m st.allColumnFilters with ⟨wrappers1, ws1, err1, s1⟩
    rw [happ2] at hrun
    have hs1 : s1 = true := by
      have hx := applyExisting_settled m st.allColumnFilters hsettled
      rw [happ2] at hx
      exact hx
    have hw1 : ∀ kv ∈ wrappers1, promiseSettled kv.2.filterPromise = true := by
      have hx := applyExisting_wrappersSettled m st.allColumnFilters hsettled
      rw [happ2] at hx
      exact hx
    cases err1 with
    | some e =>
      have hrun2 : (({ st with
          allColumnFilters := wrappers1,
          warnings := st.warnings ++ ws1 } : FilterManager), some e) =
          ((st2, none) : FilterManager × Option String) := hrun
      have := (Prod.mk.injEq _ _ _ _).mp hrun2
      exact absurd this.2 (by simp)
    | none =>
      have hrun2 : (match createAndApply env
          (m.filter fun kv => (alookup st.allColumnFilters kv.1).isNone)
          { st with
            allColumnFilters := wrappers1,
            warnings := st.warnings ++ ws1 } with
        | (st2, some e, _) => (st2, some e)
        | (st2, none, s2) =>
          if s1 && s2 then finishSetFilterModel env st2 (getFilterModel st)
          else (st2, none)) =
          ((st2, none) : FilterManager × Option String) := hrun
      rcases hca : createAndApply env
          (m.filter fun kv => (alookup st.allColumnFilters kv.1).isNone)
          { st with allColumnFilters := wrappers1, warnings := st.warnings ++ ws1 }
        with ⟨stA, errA, s2⟩
      rw [hca] at hrun2
      have hAev : stA.events = st.events := by
        have hAevraw := createAndApply_events env
          (m.filter fun kv => (alookup st.allColumnFilters kv.1).isNone)
          { st with allColumnFilters := wrappers1, warnings := st.warnings ++ ws1 }
        rw [hca] at hAevraw
        exact hAevraw
      have hs2 : s2 = true := by
        have hx := createAndApply_settled env hfac
          (m.filter fun kv => (alookup st.allColumnFilters kv.1).isNone)
          { st with allColumnFilters := wrappers1, warnings := st.warnings ++ ws1 }
          hw1
        rw [hca] at hx
        exact hx
      cases errA with
      | some e =>
        have hrun3 : ((stA, some e) : FilterManager × Option String) = (st2, none) :=
          hrun2
        have := (Prod.mk.injEq _ _ _ _).mp hrun3
        exact absurd this.2 (by simp)
      | none =>
        rw [hs1, hs2] at hrun2
        have hrun3 : finishSetFilterModel env stA (getFilterModel st) = (st2, none) :=
          hrun2
        have hcolsdef : (stA.allColumnFilters.filterMap fun kv =>
            if alookup (getFilterModel st) kv.1 = alookup (getFilterModel stA) kv.1
            then none else some kv.2.column.colId) = changedCols st stA := rfl
        unfold finishSetFilterModel at hrun3
        rw [hcolsdef] at hrun3
        cases hc : changedCols st stA with
        | nil =>
          rw [hc] at hrun3
          rw [if_pos rfl] at hrun3
          have hst2 : st2 = stA := ((Prod.mk.injEq _ _ _ _).mp hrun3).1.symm
          subst hst2
          rw [hc]
          rw [if_pos rfl, List.append_nil]
          exact hAev
        | cons c0 cs =>
          rw [hc] at hrun3
          rw [if_neg (by simp)] at hrun3
          have hok : (onFilterChanged env stA (c0 :: cs)).2 = none := by
            rw [hrun3]
          have hst2 : st2 = (onFilterChanged env stA (c0 :: cs)).1 := by
            rw [hrun3]
          have hch : changedCols st st2 = changedCols st stA := by
            rw [hst2]
            unfold changedCols
            unfold getFilterModel
            rw [onFilterChanged_map hno]
          rw [hch, hc]
          rw [if_neg (by simp)]
          rw [hst2]
          rw [onFilterChanged_events_ok env stA (c0 :: cs) hok]
          rw [hAev]

/-- The claim C2 theorem applied at a concrete one-wrapper state:
re-importing the exported model is the identity. -/
theorem setFilterModel_diff_and_idempotent_witness :
    setFilterModel baseEnv oneWrapperSt (some (getFilterModel oneWrapperSt)) =
      (oneWrapperSt, none) :=
  (setFilterModel_diff_and_idempotent baseEnv oneWrapperSt
    (by decide)
    (by
      intro kv hkv
      rcases List.mem_singleton.mp hkv with rfl
      rfl)
    rfl
    (fun _ => rfl)).1

end AgGridFilter
